import Mathlib

/-!
Verification development for the medication-name resolution pipeline of the
MedGenGame repository.

The TypeScript sources are shallowly embedded as Lean definitions:

* strings are modelled as `List Char` (`Str`); JavaScript string methods
  (`toLowerCase`, `trim`, `includes`, `split`, template literals) become the
  corresponding list functions;
* the JavaScript regular expressions used by the pipeline (all of the shape
  `\b(alt1|alt2|...)\b` with the `i` flag, where every alternative is a
  literal word possibly containing a `.` (any character except a line
  terminator) or `.?` (optionally any such character) in the middle) are
  embedded by an explicit token matcher (`RTok`, `regexTest`);
* `async` functions become pure functions; the external DailyMed search
  collaborator is a parameter `search : Str → Except Str (List
  DailyMedSearchResult)` where `Except.error` models a thrown/rejected
  fetch, which the source catches per search term;
* JSON values with optional fields are structures with `Option Str` fields;
  the JavaScript idiom `x || ''` becomes `Option.getD x []` (plus
  `jsOrStr` for the `x || 'unspecified'` variant, which also replaces the
  empty string because `''` is falsy in JavaScript).
-/

/-- Strings, modelled as lists of characters. -/
abbrev Str := List Char

/-- JavaScript `\w` word characters (`[A-Za-z0-9_]`), used by the `\b`
word-boundary assertion. -/
def isWordChar (c : Char) : Bool := c.isAlphanum || c == '_'

/-- Characters matched by the JavaScript regex `.` atom: any character
except the four line terminators. -/
def isDotChar (c : Char) : Bool :=
  !(c == '\n' || c == '\r' || c.toNat == 8232 || c.toNat == 8233)

/-- Embeds JavaScript `String.prototype.toLowerCase` (for the ASCII range,
which is all the pipeline's fixed keyword sets use). -/
def jsToLower (s : Str) : Str := s.map Char.toLower

/-- Embeds JavaScript `String.prototype.trim`. -/
def jsTrim (s : Str) : Str :=
  ((s.dropWhile Char.isWhitespace).reverse.dropWhile Char.isWhitespace).reverse

/-- Embeds the JavaScript idiom `a || b` on strings: `''` is falsy. -/
def jsOrStr (a b : Str) : Str := if a.isEmpty then b else a

/-- `listHasPrefix p s` is true when `p` is a prefix of `s`. -/
def listHasPrefix : Str → Str → Bool
  | [], _ => true
  | _ :: _, [] => false
  | c :: p, d :: s => c == d && listHasPrefix p s

/-- Embeds JavaScript `s.includes(sub)` (substring containment). -/
def jsIncludes : Str → Str → Bool
  | [], sub => listHasPrefix sub []
  | c :: rest, sub => listHasPrefix sub (c :: rest) || jsIncludes rest sub

/-- Worker for `dedupFirst`: `seen` collects the elements already kept. -/
def dedupFirstAux {α : Type} [DecidableEq α] : List α → List α → List α
  | _, [] => []
  | seen, a :: l =>
    if a ∈ seen then dedupFirstAux seen l else a :: dedupFirstAux (a :: seen) l

/-- Embeds `[...new Set(xs)]`: removes duplicates keeping the first
occurrence of each element, preserving first-occurrence order. -/
def dedupFirst {α : Type} [DecidableEq α] (l : List α) : List α := dedupFirstAux [] l

/-- Worker for `splitOnSeq`; `acc` holds the current chunk reversed and the
fuel (initially the length of the string) makes the recursion structural. -/
def splitOnSeqAux (sep : Str) : Nat → Str → Str → List Str
  | _, acc, [] => [acc.reverse]
  | 0, acc, s => [acc.reverse ++ s]
  | fuel + 1, acc, c :: s =>
    if listHasPrefix sep (c :: s) then
      acc.reverse :: splitOnSeqAux sep fuel [] (List.drop (sep.length - 1) s)
    else
      splitOnSeqAux sep fuel (c :: acc) s

/-- Embeds JavaScript `s.split(sep)` for a non-empty literal separator
(both the single-character `split('/')` and the multi-character
`split(' and ')` forms used by the source). -/
def splitOnSeq (sep s : Str) : List Str := splitOnSeqAux sep s.length [] s

/-- Tokens of the embedded regular expressions: a literal character, the
`.` atom (exactly one non-line-terminator character) and the `.?` atom
(at most one non-line-terminator character). -/
inductive RTok where
  | lit (c : Char)
  | anyOne
  | optAny
deriving DecidableEq

/-- All ways a token list can match a prefix of `s`; returns the list of
possible remainders. -/
def matchToks : List RTok → Str → List Str
  | [], s => [s]
  | RTok.lit _ :: _, [] => []
  | RTok.lit c :: ps, d :: s => if d == c then matchToks ps s else []
  | RTok.anyOne :: _, [] => []
  | RTok.anyOne :: ps, d :: s => if isDotChar d then matchToks ps s else []
  | RTok.optAny :: ps, [] => matchToks ps []
  | RTok.optAny :: ps, d :: s =>
    matchToks ps (d :: s) ++ (if isDotChar d then matchToks ps s else [])

/-- The trailing `\b` assertion after a match that ends in a word
character: the remainder must start with a non-word character (or end). -/
def boundaryOkB : Str → Bool
  | [] => true
  | c :: _ => !isWordChar c

/-- Does one of the alternatives match at the current position with a valid
trailing word boundary? -/
def matchHere (pats : List (List RTok)) (s : Str) : Bool :=
  pats.any fun p => (matchToks p s).any boundaryOkB

/-- Scans all start positions; `b` records whether the previous character
was a non-word character (or the string start), i.e. whether the leading
`\b` holds for alternatives that begin with a word character. -/
def scanFrom (pats : List (List RTok)) : Bool → Str → Bool
  | b, [] => b && matchHere pats []
  | b, c :: rest => (b && matchHere pats (c :: rest)) || scanFrom pats (!isWordChar c) rest

/-- Embeds `re.test(s)` for a case-sensitive regex `\b(p1|p2|...)\b` whose
alternatives all begin and end with word characters (true for every
pattern set in the source). Case-insensitivity is obtained by the callers
lowercasing `s` first (all patterns are lower-case ASCII). -/
def regexTest (pats : List (List RTok)) (s : Str) : Bool := scanFrom pats true s

/-- Literal word alternative. -/
def wordToks (w : String) : List RTok := w.toList.map RTok.lit

/-- Alternative of the shape `w1.?w2`. -/
def gapToks (w1 w2 : String) : List RTok := wordToks w1 ++ RTok.optAny :: wordToks w2

/-- Alternative of the shape `w1.w2`. -/
def gapOneToks (w1 w2 : String) : List RTok := wordToks w1 ++ RTok.anyOne :: wordToks w2

/-- The alternatives of the regex in `OpenAIService.isExplicitlyER`
(src/server/services/openai.ts:415):
`\b(extended.?release|extended.?release|er|xl|xr|sustained.?release|sr|la|long.?acting)\b/i`. -/
def erExplicitPats : List (List RTok) :=
  [gapToks "extended" "release", gapToks "extended" "release",
   wordToks "er", wordToks "xl", wordToks "xr",
   gapToks "sustained" "release", wordToks "sr", wordToks "la",
   gapToks "long" "acting"]

/-- Embeds `OpenAIService.isExplicitlyER` (src/server/services/openai.ts:414-417):
the formulation classifier over a medication's context string. -/
def isExplicitlyER (context : Str) : Bool :=
  regexTest erExplicitPats (jsToLower context)

/-- The alternatives of the `erIndicators` regex used by the candidate
matcher, the relaxed search and the dosage validator:
`\b(extended.release|extended-release|er|xl|xr|sustained.release|sustained-release|sr|la)\b/i`. -/
def matcherERPats : List (List RTok) :=
  [gapOneToks "extended" "release", wordToks "extended-release",
   wordToks "er", wordToks "xl", wordToks "xr",
   gapOneToks "sustained" "release", wordToks "sustained-release",
   wordToks "sr", wordToks "la"]

/-- The alternatives of the `irIndicators` regex:
`\b(immediate.release|immediate-release|ir)\b/i`. -/
def matcherIRPats : List (List RTok) :=
  [gapOneToks "immediate" "release", wordToks "immediate-release", wordToks "ir"]

/-- `erIndicators.test(title)` as used by the matchers. -/
def erIndicators (title : Str) : Bool := regexTest matcherERPats (jsToLower title)

/-- `irIndicators.test(title)` as used by the matchers. -/
def irIndicators (title : Str) : Bool := regexTest matcherIRPats (jsToLower title)

example : isExplicitlyER ("metformin er 500mg".toList) = true := by decide
example : isExplicitlyER ("water bottle".toList) = false := by decide
example : isExplicitlyER ("extendedrelease".toList) = true := by decide
example : isExplicitlyER ("extendedqrelease".toList) = true := by decide
example : isExplicitlyER ("Metformin XR".toList) = true := by decide
example : isExplicitlyER ("long-acting insulin".toList) = true := by decide
example : erIndicators ("metformin extendedrelease".toList) = false := by decide
example : erIndicators ("metformin extended-release".toList) = true := by decide
example : irIndicators ("lisinopril immediate release tablets".toList) = true := by decide
example : jsIncludes ("hello world".toList) ("lo wo".toList) = true := by decide
example : jsIncludes ("hello".toList) ("world".toList) = false := by decide
example : splitOnSeq ("/".toList) ("a/b".toList) = ["a".toList, "b".toList] := by decide
example : splitOnSeq (" and ".toList) ("alpha and beta".toList)
    = ["alpha".toList, "beta".toList] := by decide
example : jsTrim ("  ab c  ".toList) = ("ab c".toList) := by decide
example : dedupFirst [1, 2, 1, 3, 2] = [1, 2, 3] := by decide

/-- Release formulation of a medication mention (`'IR' | 'ER'`). -/
inductive Formulation where
  | IR
  | ER
deriving DecidableEq

/-- The string the source interpolates for a formulation value. -/
def Formulation.render : Formulation → Str
  | .IR => "IR".toList
  | .ER => "ER".toList

/-- `DailyMedSearchResult` (src/unnamed/part_002:3-9). All fields are
`Option Str` because they are copied from untyped JSON (`any`), so any of
them may be `undefined` at runtime; the source guards with `?.` / `|| ''`. -/
structure DailyMedSearchResult where
  setId : Option Str
  title : Option Str
  genericName : Option Str
  brandName : Option Str
  labeler : Option Str
deriving DecidableEq

/-- `DailyMedDetails` (src/unnamed/part_002:11-23), as built by
`searchMultipleMedications` from an accepted search result. -/
structure DailyMedDetails where
  setId : Option Str
  title : Option Str
  genericName : Option Str
  brandName : Option Str
  labeler : Option Str
  activeIngredients : List Str
  indications : Str
  dosageAndAdministration : Str
  contraindications : Str
  warningsAndPrecautions : Str
  adverseReactions : Str
deriving DecidableEq

/-- A medication mention as consumed by `searchMultipleMedications`
(`{name, dosage?, formulation, deliveryMethod?, fullContext}`). -/
structure MedicationMention where
  name : Str
  dosage : Option Str
  formulation : Formulation
  deliveryMethod : Option Str
  fullContext : Str
deriving DecidableEq

/-- One entry of the search audit log (src/unnamed/part_002:200).
`rejectedReasons` is `none` for the entries the source builds without that
field (search-error and processing-error entries). -/
structure SearchLogEntry where
  medication : Str
  searchTerm : Str
  found : Bool
  resultTitle : Option Str
  error : Option Str
  rejectedReasons : Option (List Str)
  requestedFormulation : Formulation
  deliveryMethod : Str
deriving DecidableEq

/-- Helper to build keyword lists. -/
def strs (l : List String) : List Str := l.map String.toList

/-- The fixed veterinary/animal-health keyword set, shared verbatim by
`searchMedications`, `isAppropriateMatchWithReasons` and
`tryRelaxedSearch`. -/
def vetKeywords : List Str :=
  strs ["zyvet", "animal health", "veterinary", "pet", "canine", "feline",
        "bovine", "equine", "porcine", "avian", "animal", "vet"]

/-- The human pharmaceutical company keyword set used to prioritize search
results (src/unnamed/part_002:63-68). -/
def humanPharmaKeywords : List Str :=
  strs ["pfizer", "merck", "novartis", "roche", "johnson", "abbvie",
        "bristol", "amgen", "gilead", "biogen", "celgene", "mylan",
        "teva", "sandoz", "apotex", "par", "watson", "actavis",
        "remedyrepack", "cardinal", "mckesson"]

/-- One element of the raw `data.data` payload returned by the DailyMed
HTTP endpoint (untyped JSON in the source). -/
structure RawSplItem where
  setid : Option Str
  title : Option Str
  generic_name : Option Str
  brand_name : Option Str
  labeler : Option Str
deriving DecidableEq

/-- The veterinary-keyword test on a (title, labeler) pair, as written in
`searchMedications` lines 47-59 (and re-used on candidates later). -/
def vetFlagged (title labeler : Option Str) : Bool :=
  vetKeywords.any fun keyword =>
    jsIncludes (jsToLower (title.getD [])) keyword ||
    jsIncludes (jsToLower (labeler.getD [])) keyword

/-- The human-pharma test on a labeler, as in the sort comparator
(src/unnamed/part_002:70-80). -/
def isHumanPharma (labeler : Option Str) : Bool :=
  humanPharmaKeywords.any fun keyword => jsIncludes (jsToLower (labeler.getD [])) keyword

/-- Stable insertion of `a` into an already-sorted list under the
comparator of src/unnamed/part_002:70-80 (`cmp b a < 0` iff `b` is
human-pharma and `a` is not). -/
def insertByPharma (a : RawSplItem) : List RawSplItem → List RawSplItem
  | [] => [a]
  | b :: l =>
    if isHumanPharma b.labeler && !isHumanPharma a.labeler then b :: insertByPharma a l
    else a :: b :: l

/-- `humanMedications.sort(comparator)`: `Array.prototype.sort` is stable
(ES2019), and for this two-class comparator the stable insertion sort
below computes the unique stable result. -/
def sortByPharma : List RawSplItem → List RawSplItem
  | [] => []
  | a :: l => insertByPharma a (sortByPharma l)

/-- `DailyMedService.searchMedications` (src/unnamed/part_002:26-93),
modelled on an already-decoded successful payload (`data.data`): filter
out veterinary items, stably move human-pharma labelers to the front,
truncate to 5 and project to `DailyMedSearchResult`. Transport failures
(`fetch` errors / non-ok statuses) are modelled at the call sites by the
collaborator parameter returning `Except.error`. -/
def searchMedications (payload : List RawSplItem) : List DailyMedSearchResult :=
  ((sortByPharma (payload.filter fun it => !vetFlagged it.title it.labeler)).take 5).map
    fun it =>
      { setId := it.setid, title := it.title, genericName := it.generic_name,
        brandName := it.brand_name, labeler := it.labeler }

/-- The permutation list `generateCombinationPermutations` builds before
its final `[...new Set(...)]` de-duplication (src/unnamed/part_002:409-446). -/
def rawCombinationPermutations (drugName : Str) : List Str :=
  let slashPart :=
    if jsIncludes drugName ("/".toList) then
      match (splitOnSeq ("/".toList) drugName).map jsTrim with
      | [p0, p1] =>
        [p0 ++ ("/".toList) ++ p1, p1 ++ ("/".toList) ++ p0,
         p0 ++ (" ".toList) ++ p1, p1 ++ (" ".toList) ++ p0,
         p0 ++ ("-".toList) ++ p1, p1 ++ ("-".toList) ++ p0,
         p0, p1]
      | _ => []
    else []
  let andPart :=
    if jsIncludes drugName (" and ".toList) || jsIncludes drugName (" & ".toList) then
      let sep := if jsIncludes drugName (" and ".toList) then (" and ".toList) else (" & ".toList)
      match (splitOnSeq sep drugName).map jsTrim with
      | [p0, p1] =>
        [p0 ++ ("/".toList) ++ p1, p1 ++ ("/".toList) ++ p0,
         p0 ++ (" ".toList) ++ p1, p1 ++ (" ".toList) ++ p0,
         p0, p1]
      | _ => []
    else []
  drugName :: (slashPart ++ andPart)

/-- `DailyMedService.generateCombinationPermutations`
(src/unnamed/part_002:408-450). -/
def generateCombinationPermutations (drugName : Str) : List Str :=
  dedupFirst (rawCombinationPermutations drugName)

/-- The block of search terms `generateSearchTerms` pushes for one name
variant `drugName` (the body of the `for` loop at
src/unnamed/part_002:355-402). -/
def termsForVariant (formulation : Formulation) (delivery ctxLower drugName : Str) : List Str :=
  let sp := (" ".toList)
  let deliveryTerms :=
    if !delivery.isEmpty then
      (match formulation with
        | .ER =>
          [drugName ++ sp ++ delivery ++ (" extended release".toList),
           drugName ++ sp ++ delivery ++ (" er".toList),
           drugName ++ sp ++ delivery ++ (" xl".toList),
           drugName ++ sp ++ delivery ++ (" xr".toList)]
        | .IR =>
          [drugName ++ sp ++ delivery ++ (" immediate release".toList),
           drugName ++ sp ++ delivery ++ (" ir".toList)])
      ++ [drugName ++ sp ++ delivery]
      ++ (if delivery == ("inhaler".toList) then
            [drugName ++ (" inhalation".toList),
             drugName ++ (" metered dose inhaler".toList),
             drugName ++ (" MDI".toList)]
          else [])
      ++ (if delivery == ("handihaler".toList) then
            [drugName ++ (" dry powder inhaler".toList),
             drugName ++ (" DPI".toList)]
          else [])
    else []
  let formulationTerms :=
    match formulation with
    | .ER =>
      [drugName ++ (" extended release".toList), drugName ++ (" er".toList),
       drugName ++ (" xl".toList), drugName ++ (" xr".toList),
       drugName ++ (" sustained release".toList), drugName ++ (" sr".toList)]
    | .IR =>
      [drugName ++ (" immediate release".toList), drugName ++ (" ir".toList)]
  let respimatTerms :=
    if jsIncludes ctxLower ("respimat".toList) then [drugName ++ (" respimat".toList)] else []
  deliveryTerms ++ formulationTerms ++ respimatTerms ++ [drugName]

/-- The term list `generateSearchTerms` accumulates before its final
`[...new Set(terms)]` de-duplication (src/unnamed/part_002:346-402). -/
def rawSearchTerms (m : MedicationMention) : List Str :=
  let medName := jsToLower m.name
  let delivery := jsToLower (m.deliveryMethod.getD [])
  (generateCombinationPermutations medName).flatMap
    (termsForVariant m.formulation delivery (jsToLower m.fullContext))

/-- `DailyMedService.generateSearchTerms` (src/unnamed/part_002:345-406). -/
def generateSearchTerms (m : MedicationMention) : List Str :=
  dedupFirst (rawSearchTerms m)

/-- Verdict of the strict candidate matcher. -/
structure MatchVerdict where
  isMatch : Bool
  reason : Str
deriving DecidableEq

/-- `DailyMedService.isAppropriateMatchWithReasons`
(src/unnamed/part_002:539-607): the strict candidate matcher, with its
early-return reject chain in source order. -/
def isAppropriateMatchWithReasons (m : MedicationMention) (result : DailyMedSearchResult) :
    MatchVerdict :=
  let title := jsToLower (result.title.getD [])
  let labeler := jsToLower (result.labeler.getD [])
  let medName := jsToLower m.name
  let delivery := jsToLower (m.deliveryMethod.getD [])
  let drugComponents := generateCombinationPermutations medName
  if !(drugComponents.any fun component => jsIncludes title (jsToLower component)) then
    ⟨false, ("doesn\x27t contain any component of ".toList) ++ medName⟩
  else if vetKeywords.any (fun keyword => jsIncludes title keyword || jsIncludes labeler keyword) then
    ⟨false, ("veterinary/animal health product".toList)⟩
  else if !delivery.isEmpty && (delivery == ("inhaler".toList) || delivery == ("handihaler".toList))
      && (jsIncludes title ("solution".toList) && !jsIncludes title ("inhalation".toList)) then
    ⟨false, ("solution not appropriate for inhaler delivery".toList)⟩
  else if !delivery.isEmpty && (delivery == ("inhaler".toList) || delivery == ("handihaler".toList))
      && (jsIncludes title ("tablet".toList) || jsIncludes title ("capsule".toList)) then
    ⟨false, ("tablet/capsule not appropriate for inhaler delivery".toList)⟩
  else if medName == ("tiotropium".toList)
      && !jsIncludes (jsToLower m.fullContext) ("olodaterol".toList)
      && jsIncludes title ("olodaterol".toList) then
    ⟨false, ("contains olodaterol but patient info doesn\x27t mention it".toList)⟩
  else if (match m.formulation with | .ER => irIndicators title | .IR => false) then
    ⟨false, ("explicitly states immediate release but patient needs ER".toList)⟩
  else if (match m.formulation with | .IR => erIndicators title | .ER => false) then
    ⟨false, ("extended release but patient needs IR".toList)⟩
  else
    ⟨true, ("appropriate match".toList)⟩

/-- The per-candidate acceptance test of the relaxed search pass (the body
of the `for (const result of searchResults.slice(0, 10))` loop,
src/unnamed/part_002:474-512): `true` iff the candidate is not skipped. -/
def relaxedCandidateOk (m : MedicationMention) (result : DailyMedSearchResult) : Bool :=
  let title := jsToLower (result.title.getD [])
  let labeler := jsToLower (result.labeler.getD [])
  if vetKeywords.any (fun keyword => jsIncludes title keyword || jsIncludes labeler keyword) then
    false
  else if !(jsIncludes title (jsToLower m.name) ||
            jsIncludes title ((splitOnSeq ("/".toList) (jsToLower m.name)).headD [])) then
    false
  else
    match m.formulation with
    | .IR => !erIndicators title
    | .ER => !irIndicators title

example :
    (isAppropriateMatchWithReasons
      { name := "metformin".toList, dosage := some ("500mg".toList), formulation := .IR,
        deliveryMethod := none, fullContext := "Metformin 500mg twice daily".toList }
      { setId := some ("s1".toList), title := some ("Metformin Hydrochloride Tablets".toList),
        genericName := none, brandName := none, labeler := none }).isMatch = true := by decide

example :
    (isAppropriateMatchWithReasons
      { name := "metformin".toList, dosage := none, formulation := .IR,
        deliveryMethod := none, fullContext := [] }
      { setId := none, title := some ("Metformin ER 500mg Tablets".toList),
        genericName := none, brandName := none, labeler := none }).isMatch = false := by decide

example :
    generateCombinationPermutations ("lisinopril/hydrochlorothiazide".toList) =
      ["lisinopril/hydrochlorothiazide".toList,
       "hydrochlorothiazide/lisinopril".toList,
       "lisinopril hydrochlorothiazide".toList,
       "hydrochlorothiazide lisinopril".toList,
       "lisinopril-hydrochlorothiazide".toList,
       "hydrochlorothiazide-lisinopril".toList,
       "lisinopril".toList, "hydrochlorothiazide".toList] := by decide

example : generateCombinationPermutations ("metformin".toList) = ["metformin".toList] := by decide

/-- `medication.deliveryMethod || 'unspecified'` as stored in every log
entry (`''` is falsy in JavaScript, hence `jsOrStr`). -/
def logDeliveryMethod (m : MedicationMention) : Str :=
  jsOrStr (m.deliveryMethod.getD []) ("unspecified".toList)

/-- The `for (const result of searchResults.slice(0, 3))` scan of
src/unnamed/part_002:235-247: first accepted candidate (if any) plus the
reject-reason strings pushed for the candidates examined before it. -/
def scanCandidates (m : MedicationMention) :
    List DailyMedSearchResult → Option DailyMedSearchResult × List Str
  | [] => (none, [])
  | r :: rs =>
    let v := isAppropriateMatchWithReasons m r
    if v.isMatch then (some r, [])
    else
      let rest := scanCandidates m rs
      (rest.1, ((r.title.getD ("undefined".toList)) ++ (": ".toList) ++ v.reason) :: rest.2)

/-- State returned by the strict search-term loop for one mention. -/
structure StrictLoopOut where
  hit : Option (DailyMedSearchResult × Str)
  log : List SearchLogEntry
  allRej : List Str
  errs : List Str
  queries : List Str
deriving DecidableEq

/-- The log entry built for one successfully executed search term
(src/unnamed/part_002:222-257). -/
def strictTermEntry (m : MedicationMention) (t : Str) (rs : List DailyMedSearchResult)
    (reasons : List Str) : SearchLogEntry :=
  { medication := m.name, searchTerm := t, found := !rs.isEmpty,
    resultTitle := match rs with | [] => none | r :: _ => r.title,
    error := if rs.isEmpty then some ("No results found in DailyMed database".toList) else none,
    rejectedReasons := some reasons,
    requestedFormulation := m.formulation,
    deliveryMethod := logDeliveryMethod m }

/-- The log entry built when a search term throws
(src/unnamed/part_002:264-271). -/
def searchErrEntry (m : MedicationMention) (t e : Str) : SearchLogEntry :=
  { medication := m.name, searchTerm := t, found := false, resultTitle := none,
    error := some (("Search failed: ".toList) ++ e), rejectedReasons := none,
    requestedFormulation := m.formulation, deliveryMethod := logDeliveryMethod m }

/-- The `for (const searchTerm of searchTerms)` loop of
src/unnamed/part_002:216-276, additionally recording (as `queries`) the
chronological list of terms actually sent to the collaborator. -/
def strictLoop (search : Str → Except Str (List DailyMedSearchResult))
    (m : MedicationMention) : List Str → StrictLoopOut
  | [] => ⟨none, [], [], [], []⟩
  | t :: ts =>
    match search t with
    | .error e =>
      let rest := strictLoop search m ts
      ⟨rest.hit, searchErrEntry m t e :: rest.log, rest.allRej,
       (("Error searching \"".toList) ++ t ++ ("\": ".toList) ++ e) :: rest.errs,
       t :: rest.queries⟩
    | .ok rs =>
      let scan := scanCandidates m (rs.take 3)
      let entry := strictTermEntry m t rs scan.2
      match scan.1 with
      | some r => ⟨some (r, t), [entry], scan.2, [], [t]⟩
      | none =>
        let rest := strictLoop search m ts
        ⟨rest.hit, entry :: rest.log, scan.2 ++ rest.allRej, rest.errs, t :: rest.queries⟩

/-- The log entry pushed when the relaxed pass accepts a candidate
(src/unnamed/part_002:515-523). -/
def relaxedSuccessEntry (m : MedicationMention) (t : Str) (r : DailyMedSearchResult) :
    SearchLogEntry :=
  { medication := m.name, searchTerm := t ++ (" (relaxed)".toList), found := true,
    resultTitle := r.title,
    error := some (("Found with relaxed criteria - ".toList) ++ m.formulation.render
      ++ (" formulation preserved".toList)),
    rejectedReasons := none, requestedFormulation := m.formulation,
    deliveryMethod := logDeliveryMethod m }

/-- Result of the relaxed search pass. -/
structure RelaxedLoopOut where
  hit : Option (DailyMedSearchResult × Str)
  log : List SearchLogEntry
  queries : List Str
deriving DecidableEq

/-- The `for (const searchTerm of uniqueTerms)` loop of
`tryRelaxedSearch` (src/unnamed/part_002:467-533): note that it appends a
log entry only when a candidate is accepted; failed relaxed terms (errors,
empty results, or all candidates skipped) leave no log entry. -/
def relaxedLoop (search : Str → Except Str (List DailyMedSearchResult))
    (m : MedicationMention) : List Str → RelaxedLoopOut
  | [] => ⟨none, [], []⟩
  | t :: ts =>
    match search t with
    | .error _ =>
      let rest := relaxedLoop search m ts
      ⟨rest.hit, rest.log, t :: rest.queries⟩
    | .ok rs =>
      match (rs.take 10).find? (relaxedCandidateOk m) with
      | some r => ⟨some (r, t ++ (" (relaxed)".toList)), [relaxedSuccessEntry m t r], [t]⟩
      | none =>
        let rest := relaxedLoop search m ts
        ⟨rest.hit, rest.log, t :: rest.queries⟩

/-- The three reduced-specificity fallback terms of `tryRelaxedSearch`
(src/unnamed/part_002:458-465), de-duplicated. -/
def relaxedSearchTerms (m : MedicationMention) : List Str :=
  dedupFirst
    [jsToLower m.name,
     (splitOnSeq ("/".toList) (jsToLower m.name)).headD [],
     (splitOnSeq ("-".toList) (jsToLower m.name)).headD []]

/-- `DailyMedService.tryRelaxedSearch` (src/unnamed/part_002:452-537). -/
def tryRelaxedSearch (search : Str → Except Str (List DailyMedSearchResult))
    (m : MedicationMention) : RelaxedLoopOut :=
  relaxedLoop search m (relaxedSearchTerms m)

/-- Static reference text tables (src/unnamed/part_002:620-738). -/
def baseIndications : List (Str × Str) :=
  [("metformin".toList, "Type 2 diabetes mellitus management to improve glycemic control".toList),
   ("lisinopril".toList, "Hypertension and heart failure management".toList),
   ("atorvastatin".toList, "Dyslipidemia and cardiovascular disease prevention".toList),
   ("amlodipine".toList, "Hypertension and angina management".toList),
   ("insulin".toList, "Diabetes mellitus for glycemic control".toList),
   ("albuterol".toList, "Bronchospasm relief in patients with reversible obstructive airway disease including asthma and COPD".toList),
   ("tiotropium".toList, "Long-term maintenance treatment of bronchospasm associated with COPD".toList),
   ("ipratropium".toList, "Bronchospasm associated with COPD including chronic bronchitis and emphysema".toList),
   ("budesonide".toList, "Maintenance treatment of asthma and COPD inflammation".toList),
   ("fluticasone".toList, "Maintenance treatment of asthma and COPD as prophylactic therapy".toList)]

/-- `getCommonIndications` (src/unnamed/part_002:621-636). -/
def getCommonIndications (medication : Str) (formulation : Formulation) : Str :=
  let base := ((baseIndications.find? fun p => p.1 == jsToLower medication).map Prod.snd).getD
    ("Consult prescribing information for specific indications".toList)
  base ++ (" (".toList) ++ formulation.render ++ (" formulation)".toList)

/-- Dosage table of `getCommonDosage` (src/unnamed/part_002:639-680):
`(drug, IR text, ER text)`. -/
def baseDosages : List (Str × Str × Str) :=
  [("metformin".toList,
    "Initial: 500mg twice daily with meals. Maximum: 2000mg daily (IR formulation)".toList,
    "Initial: 500mg once daily with evening meal. Maximum: 2000mg daily (ER formulation)".toList),
   ("lisinopril".toList,
    "Initial: 10mg once daily. Range: 5-40mg daily (IR formulation)".toList,
    "Initial: 10mg once daily. Range: 5-40mg daily (ER formulation)".toList),
   ("atorvastatin".toList,
    "Initial: 10-20mg once daily. Range: 10-80mg daily (IR formulation)".toList,
    "Initial: 10-20mg once daily. Range: 10-80mg daily (ER formulation)".toList),
   ("amlodipine".toList,
    "Initial: 5mg once daily. Maximum: 10mg daily (IR formulation)".toList,
    "Initial: 5mg once daily. Maximum: 10mg daily (ER formulation)".toList),
   ("insulin".toList,
    "Individualized based on blood glucose monitoring (rapid-acting)".toList,
    "Individualized based on blood glucose monitoring (long-acting)".toList),
   ("albuterol".toList,
    "Inhaler: 1-2 puffs every 4-6 hours as needed. Maximum: 12 puffs daily (rescue inhaler)".toList,
    "Extended-release tablets: 4-8mg every 12 hours (ER formulation)".toList),
   ("tiotropium".toList,
    "18mcg once daily via HandiHaler or 2.5mcg once daily via Respimat (maintenance therapy)".toList,
    "18mcg once daily via HandiHaler or 2.5mcg once daily via Respimat (maintenance therapy)".toList),
   ("ipratropium".toList,
    "Inhaler: 2 puffs 4 times daily. Maximum: 12 puffs daily (maintenance bronchodilator)".toList,
    "Inhaler: 2 puffs 4 times daily. Maximum: 12 puffs daily (maintenance bronchodilator)".toList),
   ("budesonide".toList,
    "Inhaler: 1-2 puffs twice daily (maintenance anti-inflammatory)".toList,
    "Inhaler: 1-2 puffs twice daily (maintenance anti-inflammatory)".toList),
   ("fluticasone".toList,
    "Inhaler: 1-2 puffs twice daily (maintenance anti-inflammatory)".toList,
    "Inhaler: 1-2 puffs twice daily (maintenance anti-inflammatory)".toList)]

/-- `getCommonDosage` (src/unnamed/part_002:638-687). -/
def getCommonDosage (medication : Str) (formulation : Formulation) : Str :=
  match baseDosages.find? fun p => p.1 == jsToLower medication with
  | some (_, irText, erText) => (match formulation with | .IR => irText | .ER => erText)
  | none =>
    ("Dosage should be individualized by healthcare provider (".toList)
      ++ formulation.render ++ (" formulation)".toList)

/-- `getCommonContraindications` (src/unnamed/part_002:689-699). -/
def getCommonContraindications (medication : Str) (_formulation : Formulation) : Str :=
  let base := ((([
    ("metformin".toList, "Severe renal impairment, metabolic acidosis, diabetic ketoacidosis".toList),
    ("lisinopril".toList, "History of angioedema, pregnancy, bilateral renal artery stenosis".toList),
    ("atorvastatin".toList, "Active liver disease, pregnancy, breastfeeding".toList),
    ("amlodipine".toList, "Known hypersensitivity to amlodipine or other dihydropyridines".toList),
    ("insulin".toList, "Hypoglycemia, known hypersensitivity to insulin".toList)] :
      List (Str × Str)).find? fun p => p.1 == jsToLower medication).map Prod.snd).getD
    ("See prescribing information for contraindications".toList)
  base ++ (" (applies to both IR and ER formulations)".toList)

/-- `getCommonWarnings` (src/unnamed/part_002:701-716). -/
def getCommonWarnings (medication : Str) (formulation : Formulation) : Str :=
  let base := ((([
    ("metformin".toList, "Risk of lactic acidosis, especially in renal impairment. Monitor kidney function".toList),
    ("lisinopril".toList, "Monitor for hyperkalemia, renal function changes, and angioedema".toList),
    ("atorvastatin".toList, "Monitor liver enzymes and for signs of myopathy or rhabdomyolysis".toList),
    ("amlodipine".toList, "May cause peripheral edema and hypotension".toList),
    ("insulin".toList, "Risk of hypoglycemia. Monitor blood glucose levels closely".toList)] :
      List (Str × Str)).find? fun p => p.1 == jsToLower medication).map Prod.snd).getD
    ("Monitor patient response and adjust as needed".toList)
  let note :=
    match formulation with
    | .ER => "Extended-release formulation provides prolonged effect - do not crush or chew tablets.".toList
    | .IR => "Immediate-release formulation provides rapid onset of action.".toList
  base ++ (" ".toList) ++ note

/-- `getCommonSideEffects` (src/unnamed/part_002:718-738). -/
def getCommonSideEffects (medication : Str) (formulation : Formulation) : Str :=
  let base := ((([
    ("metformin".toList, "Nausea, vomiting, diarrhea, abdominal pain, loss of appetite".toList),
    ("lisinopril".toList, "Dry cough, hyperkalemia, angioedema, hypotension, dizziness".toList),
    ("atorvastatin".toList, "Muscle pain, elevated liver enzymes, headache, nausea".toList),
    ("amlodipine".toList, "Peripheral edema, dizziness, flushing, palpitations".toList),
    ("insulin".toList, "Hypoglycemia, injection site reactions, weight gain".toList),
    ("albuterol".toList, "Tremor, nervousness, headache, throat irritation, palpitations".toList),
    ("tiotropium".toList, "Dry mouth, constipation, upper respiratory tract infection, urinary retention".toList),
    ("ipratropium".toList, "Dry mouth, cough, headache, dizziness, nausea".toList),
    ("budesonide".toList, "Oral thrush, hoarse voice, cough, headache, upper respiratory infection".toList),
    ("fluticasone".toList, "Oral thrush, hoarse voice, headache, cough, upper respiratory infection".toList)] :
      List (Str × Str)).find? fun p => p.1 == jsToLower medication).map Prod.snd).getD
    ("Common side effects vary by medication".toList)
  let note :=
    match formulation with
    | .ER => "ER formulation may have reduced GI side effects due to slower release.".toList
    | .IR => "IR formulation may cause more immediate onset of side effects.".toList
  base ++ (" ".toList) ++ note

/-- Conversion of the accepted search result to `DailyMedDetails`
(src/unnamed/part_002:289-304). `bestResult.genericName ? [g] : []`: the
empty string is falsy. -/
def toDetails (m : MedicationMention) (r : DailyMedSearchResult) : DailyMedDetails :=
  { setId := r.setId, title := r.title, genericName := r.genericName,
    brandName := r.brandName, labeler := r.labeler,
    activeIngredients :=
      match r.genericName with
      | some g => if g.isEmpty then [] else [g]
      | none => [],
    indications := getCommonIndications m.name m.formulation,
    dosageAndAdministration := getCommonDosage m.name m.formulation,
    contraindications := getCommonContraindications m.name m.formulation,
    warningsAndPrecautions := getCommonWarnings m.name m.formulation,
    adverseReactions := getCommonSideEffects m.name m.formulation }

/-- The terminal failure entry (src/unnamed/part_002:307-326). -/
def failEntry (m : MedicationMention) (s : StrictLoopOut) : SearchLogEntry :=
  let failureReason :=
    if !s.errs.isEmpty then
      ("Search errors: ".toList) ++ List.intercalate ("; ".toList) s.errs
    else if !s.allRej.isEmpty then
      ("Found results but all were rejected: ".toList)
        ++ List.intercalate ("; ".toList) (s.allRej.take 3)
    else ("No results found in DailyMed database".toList)
  { medication := m.name, searchTerm := ("SEARCH_FAILED".toList), found := false,
    resultTitle := none, error := some failureReason,
    rejectedReasons := some (s.allRej.take 5),
    requestedFormulation := m.formulation, deliveryMethod := logDeliveryMethod m }

/-- Output of processing one mention. -/
structure MentionOut where
  result : Option DailyMedDetails
  log : List SearchLogEntry
  queries : List Str
deriving DecidableEq

/-- The body of the per-medication `try` block of
`searchMultipleMedications` (src/unnamed/part_002:205-327): strict
term loop, then relaxed fallback, then the terminal failure entry. -/
def processOneMention (search : Str → Except Str (List DailyMedSearchResult))
    (m : MedicationMention) : MentionOut :=
  let s := strictLoop search m (generateSearchTerms m)
  match s.hit with
  | some (r, _) => ⟨some (toDetails m r), s.log, s.queries⟩
  | none =>
    let rel := tryRelaxedSearch search m
    match rel.hit with
    | some (r, _) => ⟨some (toDetails m r), s.log ++ rel.log, s.queries ++ rel.queries⟩
    | none => ⟨none, s.log ++ rel.log ++ [failEntry m s], s.queries ++ rel.queries⟩

/-- The catch-level log entry (src/unnamed/part_002:330-337). -/
def processingErrEntry (m : MedicationMention) (e : Str) : SearchLogEntry :=
  { medication := m.name, searchTerm := ("PROCESSING_ERROR".toList), found := false,
    resultTitle := none, error := some (("Processing failed: ".toList) ++ e),
    rejectedReasons := none, requestedFormulation := m.formulation,
    deliveryMethod := logDeliveryMethod m }

/-- Output of a whole batch. -/
structure BatchOut where
  results : List DailyMedDetails
  searchLog : List SearchLogEntry
  queries : List Str
deriving DecidableEq

/-- The `for (const medication of medications) { try ... catch ... }` loop
of `searchMultipleMedications` (src/unnamed/part_002:204-340). `step`
abstracts the `try`-block body, whose JavaScript evaluation may throw; the
`catch` arm appends the `PROCESSING_ERROR` entry and continues. -/
def runMentions (step : MedicationMention → Except Str MentionOut) :
    List MedicationMention → BatchOut
  | [] => ⟨[], [], []⟩
  | m :: ms =>
    match step m with
    | .ok out =>
      let rest := runMentions step ms
      ⟨out.result.toList ++ rest.results, out.log ++ rest.searchLog,
       out.queries ++ rest.queries⟩
    | .error e =>
      let rest := runMentions step ms
      ⟨rest.results, processingErrEntry m e :: rest.searchLog, rest.queries⟩

/-- `DailyMedService.searchMultipleMedications` (src/unnamed/part_002:188-343)
on an already-extracted mention list (the `openAIExtractedMeds` path),
with the external collaborator as a parameter. In this typed embedding the
`try`-block body is total, so `step` never throws. -/
def searchMultipleMedications (search : Str → Except Str (List DailyMedSearchResult))
    (ms : List MedicationMention) : BatchOut :=
  runMentions (fun m => Except.ok (processOneMention search m)) ms

/-- A raw medication object as parsed from the LLM extraction response
(untyped JSON, src/server/services/openai.ts:387-391). -/
structure RawExtractedMedication where
  name : Option Str
  dosage : Option Str
  formulation : Option Str
  deliveryMethod : Option Str
  fullContext : Option Str
deriving DecidableEq

/-- The post-processing `medications.map(...)` of
`extractMedicationsFromText` (src/server/services/openai.ts:390-406):
default to IR, upgrade to ER only when the LLM said ER *and*
`isExplicitlyER(med.fullContext)` holds. When `fullContext` is absent,
`RegExp.test(undefined)` coerces the argument to the string
`"undefined"`, hence the `getD`. -/
def finalizeExtractedMedication (med : RawExtractedMedication) : MedicationMention :=
  let finalFormulation : Formulation :=
    if med.formulation == some ("ER".toList)
        && isExplicitlyER (med.fullContext.getD ("undefined".toList)) then .ER
    else .IR
  { name := med.name.getD [], dosage := some (med.dosage.getD []),
    formulation := finalFormulation,
    deliveryMethod := some (med.deliveryMethod.getD []),
    fullContext := med.fullContext.getD [] }

/-- `OpenAIService.extractMedicationsFromText` (src/server/services/openai.ts:337-412),
with the LLM collaborator's parsed response as input. -/
def extractMedicationsFromText (meds : List RawExtractedMedication) : List MedicationMention :=
  meds.map finalizeExtractedMedication

/-- States of the scanner for the global regex `/\d+(?:\.\d+)?/g`. -/
inductive NumPhase where
  | intp
  | dotp
  | fracp
deriving DecidableEq

/-- One step of the `\d+(\.\d+)?` scanner: the state is the list of
finished matches plus the match in progress (digits seen, phase). -/
def numStep : List Str × Option (Str × NumPhase) → Char → List Str × Option (Str × NumPhase)
  | (toks, none), c => if c.isDigit then (toks, some ([c], .intp)) else (toks, none)
  | (toks, some (acc, .intp)), c =>
    if c.isDigit then (toks, some (acc ++ [c], .intp))
    else if c == '.' then (toks, some (acc, .dotp))
    else (toks ++ [acc], none)
  | (toks, some (acc, .dotp)), c =>
    if c.isDigit then (toks, some (acc ++ ('.' :: [c]), .fracp))
    else (toks ++ [acc], none)
  | (toks, some (acc, .fracp)), c =>
    if c.isDigit then (toks, some (acc ++ [c], .fracp))
    else (toks ++ [acc], none)

/-- `dosage.match(/\d+(?:\.\d+)?/g)`: the list of maximal number matches,
left to right. -/
def numberTokenMatches (s : Str) : List Str :=
  match s.foldl numStep ([], none) with
  | (toks, none) => toks
  | (toks, some (acc, _)) => toks ++ [acc]

/-- Greedy parse of `\d+(?:\.\d+)?` at the current position (greediness
agrees with the backtracking regex here because `/` and `.` are not
digits). -/
def parseNumAt (s : Str) : Option (Str × Str) :=
  let ds := s.takeWhile Char.isDigit
  if ds.isEmpty then none
  else
    match s.dropWhile Char.isDigit with
    | '.' :: r2 =>
      let fs := r2.takeWhile Char.isDigit
      if fs.isEmpty then some (ds, '.' :: r2)
      else some (ds ++ ('.' :: fs), r2.dropWhile Char.isDigit)
    | r1 => some (ds, r1)

/-- Match of `/(\d+(?:\.\d+)?)\/(\d+(?:\.\d+)?)/` anchored at the current
position, returning the two capture groups. -/
def comboMatchAt (s : Str) : Option (Str × Str) :=
  match parseNumAt s with
  | none => none
  | some (n1, r1) =>
    match r1 with
    | '/' :: r2 =>
      (match parseNumAt r2 with
        | some (n2, _) => some (n1, n2)
        | none => none)
    | _ => none

/-- `dosage.match(combinationRegex)`: leftmost match. -/
def firstComboMatch : Str → Option (Str × Str)
  | [] => none
  | c :: rest =>
    match comboMatchAt (c :: rest) with
    | some p => some p
    | none => firstComboMatch rest

/-- `OpenAIService.extractDosageNumbers` (src/server/services/openai.ts:463-486). -/
def extractDosageNumbers (dosage : Str) : List Str :=
  let patterns := (numberTokenMatches dosage).flatMap
    fun n => [n ++ ("mg".toList), n ++ (" mg".toList), n]
  let comboPatterns :=
    match firstComboMatch dosage with
    | some (a, b) =>
      [a ++ ("/".toList) ++ b, a ++ (" / ".toList) ++ b, a ++ ("-".toList) ++ b]
    | none => []
  dedupFirst (patterns ++ comboPatterns)

/-- Return value of `validateDosageAvailability`. -/
structure DosageValidation where
  formulation : Formulation
  reasoning : Str
deriving DecidableEq

/-- `OpenAIService.validateDosageAvailability`
(src/server/services/openai.ts:419-461). The accumulator is the pair
`(availableFormulations.IR, availableFormulations.ER)`. -/
def validateDosageAvailability (medication : MedicationMention)
    (searchResults : List DailyMedSearchResult) : DosageValidation :=
  let dosagePattern := extractDosageNumbers (medication.dosage.getD [])
  let avail := searchResults.foldl
    (fun (acc : Bool × Bool) result =>
      let title := jsToLower (result.title.getD [])
      if dosagePattern.any fun dose => jsIncludes title dose then
        if erIndicators title then (acc.1, true)
        else if irIndicators title || !erIndicators title then (true, acc.2)
        else acc
      else acc)
    (false, false)
  if medication.formulation = Formulation.ER ∧ avail.2 = true then
    ⟨.ER, ("ER explicitly requested and available".toList)⟩
  else if medication.formulation = Formulation.ER ∧ avail.2 = false ∧ avail.1 = true then
    ⟨.IR, ("ER requested but not available, defaulting to IR".toList)⟩
  else if avail.1 = true then
    ⟨.IR, ("IR is default and available".toList)⟩
  else if avail.2 = true then
    ⟨.ER, ("only ER formulation available".toList)⟩
  else
    ⟨.IR, ("no specific dosage found, defaulting to IR".toList)⟩

example : numberTokenMatches ("49/51mg twice".toList) = ["49".toList, "51".toList] := by decide
example : numberTokenMatches ("6.25mg".toList) = ["6.25".toList] := by decide
example : firstComboMatch ("49/51mg".toList) = some ("49".toList, "51".toList) := by decide
example : extractDosageNumbers ("500mg".toList)
    = ["500mg".toList, "500 mg".toList, "500".toList] := by decide

example :
    (validateDosageAvailability
      { name := "metformin".toList, dosage := some ("500mg".toList), formulation := .IR,
        deliveryMethod := none, fullContext := [] }
      [{ setId := none, title := some ("Metformin ER 500mg Tablets".toList),
         genericName := none, brandName := none, labeler := none }]).formulation
    = Formulation.ER := by decide

/-- Specification-level matching relation for a token list against a
consumed word `w`. -/
def ToksMatch : List RTok → Str → Prop
  | [], w => w = []
  | RTok.lit c :: ps, w => ∃ w2, w = c :: w2 ∧ ToksMatch ps w2
  | RTok.anyOne :: ps, w => ∃ d w2, w = d :: w2 ∧ isDotChar d = true ∧ ToksMatch ps w2
  | RTok.optAny :: ps, w =>
    ToksMatch ps w ∨ ∃ d w2, w = d :: w2 ∧ isDotChar d = true ∧ ToksMatch ps w2

/-- Left word-boundary: the character just before the match (the last of
`u`), if any, is a non-word character. -/
def LeftOk (u : Str) : Prop := ∀ c, u.getLast? = some c → isWordChar c = false

/-- Right word-boundary: the character just after the match, if any, is a
non-word character. -/
def RightOk (v : Str) : Prop := ∀ c, v.head? = some c → isWordChar c = false

/-- `kw` occurs in `s` delimited by word boundaries on both sides. -/
def OccursWholeWord (kw s : Str) : Prop :=
  ∃ pre post, s = pre ++ kw ++ post ∧ LeftOk pre ∧ RightOk post

theorem mem_matchToks (p : List RTok) : ∀ (v rem : Str),
    rem ∈ matchToks p v ↔ ∃ w, v = w ++ rem ∧ ToksMatch p w := by
  induction p with
  | nil =>
    intro v rem
    simp [matchToks, ToksMatch, eq_comm]
  | cons tok ps ih =>
    intro v rem
    cases tok with
    | lit c =>
      cases v with
      | nil =>
        simp only [matchToks, List.not_mem_nil, false_iff]
        rintro ⟨w, hw, w2, rfl, -⟩
        exact (List.cons_ne_nil _ _) (List.append_eq_nil.mp hw.symm).1
      | cons d s =>
        by_cases hdc : d = c
        · subst hdc
          rw [matchToks, if_pos (beq_self_eq_true d)]
          rw [ih]
          constructor
          · rintro ⟨w, rfl, hm⟩
            exact ⟨d :: w, rfl, w, rfl, hm⟩
          · rintro ⟨w, hw, w2, rfl, hm⟩
            rw [List.cons_append, List.cons_eq_cons] at hw
            exact ⟨w2, hw.2, hm⟩
        · rw [matchToks, if_neg (by simpa using hdc)]
          simp only [List.not_mem_nil, false_iff, ToksMatch]
          rintro ⟨w, hw, w2, rfl, -⟩
          rw [List.cons_append, List.cons_eq_cons] at hw
          exact hdc hw.1
    | anyOne =>
      cases v with
      | nil =>
        simp only [matchToks, List.not_mem_nil, false_iff, ToksMatch]
        rintro ⟨w, hw, d, w2, rfl, -, -⟩
        exact (List.cons_ne_nil _ _) (List.append_eq_nil.mp hw.symm).1
      | cons d s =>
        by_cases hd : isDotChar d = true
        · rw [matchToks, if_pos hd, ih]
          constructor
          · rintro ⟨w, rfl, hm⟩
            exact ⟨d :: w, rfl, d, w, rfl, hd, hm⟩
          · rintro ⟨w, hw, d2, w2, rfl, hd2, hm⟩
            rw [List.cons_append, List.cons_eq_cons] at hw
            exact ⟨w2, hw.2, hm⟩
        · rw [matchToks, if_neg hd]
          simp only [List.not_mem_nil, false_iff, ToksMatch]
          rintro ⟨w, hw, d2, w2, rfl, hd2, -⟩
          rw [List.cons_append, List.cons_eq_cons] at hw
          exact hd (hw.1 ▸ hd2)
    | optAny =>
      cases v with
      | nil =>
        rw [matchToks, ih]
        simp only [ToksMatch]
        constructor
        · rintro ⟨w, hw, hm⟩
          exact ⟨w, hw, Or.inl hm⟩
        · rintro ⟨w, hw, hm | ⟨d, w2, rfl, -, -⟩⟩
          · exact ⟨w, hw, hm⟩
          · exact absurd hw.symm (by simp)
      | cons d s =>
        constructor
        · intro hmem
          rw [matchToks] at hmem
          rcases List.mem_append.mp hmem with hmem | hmem
          · rcases (ih _ rem).mp hmem with ⟨w, hw, hm⟩
            exact ⟨w, hw, Or.inl hm⟩
          · by_cases hd : isDotChar d = true
            · rw [if_pos hd] at hmem
              rcases (ih s rem).mp hmem with ⟨w, rfl, hm⟩
              exact ⟨d :: w, rfl, Or.inr ⟨d, w, rfl, hd, hm⟩⟩
            · rw [if_neg hd] at hmem
              simp at hmem
        · rintro ⟨w, hw, hm | ⟨d2, w2, rfl, hd2, hm⟩⟩
          · rw [matchToks]
            exact List.mem_append.mpr (Or.inl ((ih _ rem).mpr ⟨w, hw, hm⟩))
          · rw [matchToks]
            refine List.mem_append.mpr (Or.inr ?_)
            rw [List.cons_append, List.cons_eq_cons] at hw
            obtain ⟨rfl, rfl⟩ := hw
            rw [if_pos hd2]
            exact (ih _ rem).mpr ⟨w2, rfl, hm⟩

theorem boundaryOkB_iff (v : Str) : boundaryOkB v = true ↔ RightOk v := by
  cases v with
  | nil => simp [boundaryOkB, RightOk]
  | cons c s =>
    simp only [boundaryOkB, Bool.not_eq_true', RightOk, List.head?_cons]
    constructor
    · rintro h c2 hc2
      cases hc2
      exact h
    · intro h
      exact h c rfl

theorem matchHere_iff (pats : List (List RTok)) (s : Str) :
    matchHere pats s = true ↔
      ∃ p ∈ pats, ∃ w rem, s = w ++ rem ∧ ToksMatch p w ∧ RightOk rem := by
  simp only [matchHere, List.any_eq_true]
  constructor
  · rintro ⟨p, hp, rem, hrem, hbd⟩
    rcases (mem_matchToks p s rem).mp hrem with ⟨w, rfl, hm⟩
    exact ⟨p, hp, w, rem, rfl, hm, (boundaryOkB_iff rem).mp hbd⟩
  · rintro ⟨p, hp, w, rem, rfl, hm, hr⟩
    exact ⟨p, hp, rem, (mem_matchToks p _ rem).mpr ⟨w, rfl, hm⟩, (boundaryOkB_iff rem).mpr hr⟩

def LeftOkB (b : Bool) (u : Str) : Prop :=
  match u.getLast? with
  | none => b = true
  | some c => isWordChar c = false

theorem getLast?_cons_isSome (c : Char) (u : Str) : ∃ e, (c :: u).getLast? = some e := by
  induction u generalizing c with
  | nil => exact ⟨c, rfl⟩
  | cons d u2 ih =>
    rw [List.getLast?_cons_cons]
    exact ih d

theorem leftOkB_cons (b : Bool) (c : Char) (u : Str) :
    LeftOkB b (c :: u) ↔ LeftOkB (!isWordChar c) u := by
  cases u with
  | nil => simp [LeftOkB, Bool.not_eq_true']
  | cons d u2 =>
    simp only [LeftOkB, List.getLast?_cons_cons]
    split
    · next h =>
      obtain ⟨e, he⟩ := getLast?_cons_isSome d u2
      rw [he] at h
      cases h
    · next c2 h => exact Iff.rfl

theorem scanFrom_iff (pats : List (List RTok)) : ∀ (s : Str) (b : Bool),
    scanFrom pats b s = true ↔
      ∃ u v, s = u ++ v ∧ LeftOkB b u ∧ matchHere pats v = true := by
  intro s
  induction s with
  | nil =>
    intro b
    simp only [scanFrom, Bool.and_eq_true]
    constructor
    · rintro ⟨hb, hm⟩
      exact ⟨[], [], rfl, hb, hm⟩
    · rintro ⟨u, v, huv, hu, hm⟩
      obtain ⟨rfl, rfl⟩ := List.append_eq_nil.mp huv.symm
      exact ⟨hu, hm⟩
  | cons c rest ih =>
    intro b
    simp only [scanFrom, Bool.or_eq_true, Bool.and_eq_true, ih]
    constructor
    · rintro (⟨hb, hm⟩ | ⟨u, v, rfl, hu, hm⟩)
      · exact ⟨[], c :: rest, rfl, hb, hm⟩
      · exact ⟨c :: u, v, rfl, (leftOkB_cons b c u).mpr hu, hm⟩
    · rintro ⟨u, v, huv, hu, hm⟩
      cases u with
      | nil =>
        cases huv
        exact Or.inl ⟨hu, hm⟩
      | cons c2 u2 =>
        rw [List.cons_append, List.cons_eq_cons] at huv
        obtain ⟨rfl, huv2⟩ := huv
        exact Or.inr ⟨u2, v, huv2, (leftOkB_cons b c u2).mp hu, hm⟩

theorem leftOkB_true_iff (u : Str) : LeftOkB true u ↔ LeftOk u := by
  simp only [LeftOkB]
  split
  · next h =>
    simp only [LeftOk]
    constructor
    · intro _ c hc
      rw [h] at hc
      cases hc
    · intro _
      trivial
  · next c h =>
    simp only [LeftOk]
    constructor
    · intro hc c2 hc2
      rw [h] at hc2
      cases hc2
      exact hc
    · intro hall
      exact hall c h

theorem regexTest_iff (pats : List (List RTok)) (s : Str) :
    regexTest pats s = true ↔
      ∃ p ∈ pats, ∃ u w rem, s = u ++ (w ++ rem) ∧ LeftOk u ∧ ToksMatch p w ∧ RightOk rem := by
  rw [regexTest, scanFrom_iff]
  constructor
  · rintro ⟨u, v, rfl, hu, hm⟩
    rcases (matchHere_iff pats v).mp hm with ⟨p, hp, w, rem, rfl, hw, hr⟩
    exact ⟨p, hp, u, w, rem, rfl, (leftOkB_true_iff u).mp hu, hw, hr⟩
  · rintro ⟨p, hp, u, w, rem, rfl, hu, hw, hr⟩
    exact ⟨u, w ++ rem, rfl, (leftOkB_true_iff u).mpr hu,
      (matchHere_iff pats _).mpr ⟨p, hp, w, rem, rfl, hw, hr⟩⟩

theorem toksMatch_lit (kw : Str) : ∀ w, ToksMatch (kw.map RTok.lit) w ↔ w = kw := by
  induction kw with
  | nil => intro w; simp [ToksMatch]
  | cons c kw2 ih =>
    intro w
    rw [List.map_cons]
    show (∃ w2, w = c :: w2 ∧ ToksMatch (kw2.map RTok.lit) w2) ↔ w = c :: kw2
    constructor
    · rintro ⟨w2, rfl, hm⟩
      rw [(ih w2).mp hm]
    · rintro rfl
      exact ⟨kw2, rfl, (ih kw2).mpr rfl⟩

theorem toksMatch_lit_append (kw : Str) (ps : List RTok) : ∀ w,
    ToksMatch (kw.map RTok.lit ++ ps) w ↔ ∃ w2, w = kw ++ w2 ∧ ToksMatch ps w2 := by
  induction kw with
  | nil => intro w; simp
  | cons c kw2 ih =>
    intro w
    rw [List.map_cons, List.cons_append]
    show (∃ w2, w = c :: w2 ∧ ToksMatch (kw2.map RTok.lit ++ ps) w2) ↔ _
    constructor
    · rintro ⟨w2, rfl, hm⟩
      obtain ⟨w3, rfl, hm3⟩ := (ih w2).mp hm
      exact ⟨w3, rfl, hm3⟩
    · rintro ⟨w2, rfl, hm⟩
      exact ⟨kw2 ++ w2, rfl, (ih (kw2 ++ w2)).mpr ⟨w2, rfl, hm⟩⟩

theorem toksMatch_gap (w1 w2 : String) (w : Str) :
    ToksMatch (gapToks w1 w2) w ↔
      w = w1.toList ++ w2.toList ∨
        ∃ d, isDotChar d = true ∧ w = w1.toList ++ d :: w2.toList := by
  rw [gapToks, wordToks, wordToks, toksMatch_lit_append]
  constructor
  · rintro ⟨rest, rfl, hm⟩
    rcases hm with hm | ⟨d, w3, rfl, hd, hm⟩
    · exact Or.inl (by rw [(toksMatch_lit _ _).mp hm])
    · exact Or.inr ⟨d, hd, by rw [(toksMatch_lit _ _).mp hm]⟩
  · rintro (rfl | ⟨d, hd, rfl⟩)
    · exact ⟨w2.toList, rfl, Or.inl ((toksMatch_lit _ _).mpr rfl)⟩
    · exact ⟨d :: w2.toList, rfl, Or.inr ⟨d, w2.toList, rfl, hd, (toksMatch_lit _ _).mpr rfl⟩⟩

theorem toksMatch_gapOne (w1 w2 : String) (w : Str) :
    ToksMatch (gapOneToks w1 w2) w ↔
      ∃ d, isDotChar d = true ∧ w = w1.toList ++ d :: w2.toList := by
  rw [gapOneToks, wordToks, wordToks, toksMatch_lit_append]
  constructor
  · rintro ⟨rest, rfl, d, w3, rfl, hd, hm⟩
    exact ⟨d, hd, by rw [(toksMatch_lit _ _).mp hm]⟩
  · rintro ⟨d, hd, rfl⟩
    exact ⟨d :: w2.toList, rfl, d, w2.toList, rfl, hd, (toksMatch_lit _ _).mpr rfl⟩

theorem toksMatch_word (kw : String) (w : Str) :
    ToksMatch (wordToks kw) w ↔ w = kw.toList := by
  rw [wordToks]; exact toksMatch_lit _ w

def wholeWordOccursB (kw s : Str) : Bool := regexTest [kw.map RTok.lit] s

theorem wholeWordOccursB_iff (kw s : Str) :
    wholeWordOccursB kw s = true ↔ OccursWholeWord kw s := by
  rw [wholeWordOccursB, regexTest_iff]
  constructor
  · rintro ⟨p, hp, u, w, rem, rfl, hu, hw, hr⟩
    rcases List.mem_singleton.mp hp with rfl
    rw [(toksMatch_lit kw w).mp hw]
    exact ⟨u, rem, by simp, hu, hr⟩
  · rintro ⟨pre, post, rfl, hpre, hpost⟩
    exact ⟨kw.map RTok.lit, List.mem_singleton.mpr rfl, pre, kw, post, by simp,
      hpre, (toksMatch_lit kw kw).mpr rfl, hpost⟩

/-- The ten keywords the specification's formulation-classifier rule lists. -/
def claimedERKeywords : List Str :=
  strs ["extended release", "extended-release", "er", "xr", "xl", "la",
        "sustained release", "sustained-release", "sr", "long-acting"]

/-- Claim-side reading of the classifier rule: the context contains, as a
case-insensitive whole-word match, one of the ten listed keywords. -/
def ClaimedERCue (context : Str) : Prop :=
  ∃ kw ∈ claimedERKeywords, OccursWholeWord kw (jsToLower context)

theorem claimedERCue_iff_any (context : Str) :
    ClaimedERCue context ↔
      (claimedERKeywords.any fun kw => wholeWordOccursB kw (jsToLower context)) = true := by
  simp only [ClaimedERCue, List.any_eq_true, wholeWordOccursB_iff]

/-- The two-word stems whose halves the source regex joins with `.?`. -/
def amendedERPairs : List (Str × Str) :=
  [("extended".toList, "release".toList),
   ("sustained".toList, "release".toList),
   ("long".toList, "acting".toList)]

/-- The single-word keywords of the source regex. -/
def amendedERWords : List Str := strs ["er", "xl", "xr", "sr", "la"]

/-- Amended classifier rule: a whole-word occurrence of one of the
single-word keywords, or of a two-word stem pair joined by nothing or by
any single non-line-terminator character (which subsumes the space and
hyphen joins the claim lists, but also e.g. `extendedrelease` and
`extendedqrelease`). -/
def AmendedERCue (context : Str) : Prop :=
  (∃ kw ∈ amendedERWords, OccursWholeWord kw (jsToLower context)) ∨
  (∃ pr ∈ amendedERPairs,
    OccursWholeWord (pr.1 ++ pr.2) (jsToLower context) ∨
      ∃ d, isDotChar d = true ∧ OccursWholeWord (pr.1 ++ d :: pr.2) (jsToLower context))

theorem occurs_decomp_word (kw : String) (t : Str) :
    (∃ u w rem, t = u ++ (w ++ rem) ∧ LeftOk u ∧ ToksMatch (wordToks kw) w ∧ RightOk rem) ↔
      OccursWholeWord kw.toList t := by
  constructor
  · rintro ⟨u, w, rem, rfl, hu, hw, hr⟩
    rw [(toksMatch_word kw w).mp hw]
    exact ⟨u, rem, by simp, hu, hr⟩
  · rintro ⟨pre, post, rfl, hpre, hpost⟩
    exact ⟨pre, kw.toList, post, by simp, hpre, (toksMatch_word kw _).mpr rfl, hpost⟩

theorem occurs_decomp_gap (w1 w2 : String) (t : Str) :
    (∃ u w rem, t = u ++ (w ++ rem) ∧ LeftOk u ∧ ToksMatch (gapToks w1 w2) w ∧ RightOk rem) ↔
      (OccursWholeWord (w1.toList ++ w2.toList) t ∨
        ∃ d, isDotChar d = true ∧ OccursWholeWord (w1.toList ++ d :: w2.toList) t) := by
  constructor
  · rintro ⟨u, w, rem, rfl, hu, hw, hr⟩
    rcases (toksMatch_gap w1 w2 w).mp hw with rfl | ⟨d, hd, rfl⟩
    · exact Or.inl ⟨u, rem, by simp, hu, hr⟩
    · exact Or.inr ⟨d, hd, u, rem, by simp, hu, hr⟩
  · rintro (⟨pre, post, rfl, hpre, hpost⟩ | ⟨d, hd, pre, post, rfl, hpre, hpost⟩)
    · exact ⟨pre, w1.toList ++ w2.toList, post, by simp, hpre,
        (toksMatch_gap w1 w2 _).mpr (Or.inl rfl), hpost⟩
    · exact ⟨pre, w1.toList ++ d :: w2.toList, post, by simp, hpre,
        (toksMatch_gap w1 w2 _).mpr (Or.inr ⟨d, hd, rfl⟩), hpost⟩

theorem isExplicitlyER_iff_amended (context : Str) :
    isExplicitlyER context = true ↔ AmendedERCue context := by
  rw [isExplicitlyER, regexTest_iff]
  simp only [erExplicitPats, List.mem_cons, List.not_mem_nil, or_false,
    exists_eq_or_imp, exists_eq_left, occurs_decomp_word, occurs_decomp_gap]
  simp only [AmendedERCue, amendedERPairs, amendedERWords, strs, List.map_cons,
    List.map_nil, List.mem_cons, List.not_mem_nil, or_false, exists_eq_or_imp,
    exists_eq_left]
  itauto

/-- C1 (counterexample): the claim's iff fails as stated. The context
`"extendedrelease"` contains none of the ten listed keywords as a
whole-word match, yet the classifier returns ER, because the source regex
`extended.?release` also matches the two stem words joined directly. -/
theorem c1_formulation_classifier_counterexample :
    isExplicitlyER ("extendedrelease".toList) = true ∧
      ¬ ClaimedERCue ("extendedrelease".toList) := by
  constructor
  · decide
  · rw [claimedERCue_iff_any]
    decide

/-- C1 (amended): the formulation classifier returns ER if and only if the
context contains a whole-word, case-insensitive occurrence of one of
`er, xl, xr, sr, la`, or of one of the stem pairs `extended`/`release`,
`sustained`/`release`, `long`/`acting` joined by nothing or by any single
non-line-terminator character (subsuming the claim's space- and
hyphen-joined keywords); for every other context it returns IR.
Moreover every keyword of the original claim still triggers ER. -/
theorem c1_formulation_classifier_amended :
    ∀ context : Str,
      (isExplicitlyER context = true ↔ AmendedERCue context) ∧
      (ClaimedERCue context → isExplicitlyER context = true) := by
  intro context
  refine ⟨isExplicitlyER_iff_amended context, ?_⟩
  rintro ⟨kw, hkw, hocc⟩
  rw [isExplicitlyER_iff_amended context]
  simp only [claimedERKeywords, strs, List.map_cons, List.map_nil, List.mem_cons,
    List.not_mem_nil, or_false] at hkw
  rcases hkw with rfl | rfl | rfl | rfl | rfl | rfl | rfl | rfl | rfl | rfl
  · exact Or.inr ⟨("extended".toList, "release".toList), by simp [amendedERPairs],
      Or.inr ⟨' ', by decide, by
        have he : "extended".toList ++ ' ' :: "release".toList = "extended release".toList := by
          decide
        rw [he]; exact hocc⟩⟩
  · exact Or.inr ⟨("extended".toList, "release".toList), by simp [amendedERPairs],
      Or.inr ⟨'-', by decide, by
        have he : "extended".toList ++ '-' :: "release".toList = "extended-release".toList := by
          decide
        rw [he]; exact hocc⟩⟩
  · exact Or.inl ⟨"er".toList, by simp [amendedERWords, strs], hocc⟩
  · exact Or.inl ⟨"xr".toList, by simp [amendedERWords, strs], hocc⟩
  · exact Or.inl ⟨"xl".toList, by simp [amendedERWords, strs], hocc⟩
  · exact Or.inl ⟨"la".toList, by simp [amendedERWords, strs], hocc⟩
  · exact Or.inr ⟨("sustained".toList, "release".toList), by simp [amendedERPairs],
      Or.inr ⟨' ', by decide, by
        have he : "sustained".toList ++ ' ' :: "release".toList = "sustained release".toList := by
          decide
        rw [he]; exact hocc⟩⟩
  · exact Or.inr ⟨("sustained".toList, "release".toList), by simp [amendedERPairs],
      Or.inr ⟨'-', by decide, by
        have he : "sustained".toList ++ '-' :: "release".toList = "sustained-release".toList := by
          decide
        rw [he]; exact hocc⟩⟩
  · exact Or.inl ⟨"sr".toList, by simp [amendedERWords, strs], hocc⟩
  · exact Or.inr ⟨("long".toList, "acting".toList), by simp [amendedERPairs],
      Or.inr ⟨'-', by decide, by
        have he : "long".toList ++ '-' :: "acting".toList = "long-acting".toList := by
          decide
        rw [he]; exact hocc⟩⟩

theorem mem_dedupFirstAux {α : Type} [DecidableEq α] :
    ∀ (l seen : List α) (x : α), x ∈ dedupFirstAux seen l ↔ x ∈ l ∧ x ∉ seen := by
  intro l
  induction l with
  | nil => intro seen x; simp [dedupFirstAux]
  | cons a l2 ih =>
    intro seen x
    by_cases ha : a ∈ seen
    · rw [dedupFirstAux, if_pos ha, ih]
      simp only [List.mem_cons]
      constructor
      · rintro ⟨hx, hn⟩
        exact ⟨Or.inr hx, hn⟩
      · rintro ⟨hx | hx, hn⟩
        · exact absurd (hx ▸ ha) hn
        · exact ⟨hx, hn⟩
    · rw [dedupFirstAux, if_neg ha]
      simp only [List.mem_cons, ih, List.mem_cons]
      constructor
      · rintro (rfl | ⟨hx, hn⟩)
        · exact ⟨Or.inl rfl, ha⟩
        · exact ⟨Or.inr hx, fun hs => hn (Or.inr hs)⟩
      · rintro ⟨rfl | hx, hn⟩
        · exact Or.inl rfl
        · by_cases hxa : x = a
          · exact Or.inl hxa
          · exact Or.inr ⟨hx, fun hs => (hs.elim hxa hn)⟩

theorem mem_dedupFirst {α : Type} [DecidableEq α] (l : List α) (x : α) :
    x ∈ dedupFirst l ↔ x ∈ l := by
  rw [dedupFirst, mem_dedupFirstAux]
  simp

theorem nodup_dedupFirstAux {α : Type} [DecidableEq α] :
    ∀ (l seen : List α), (dedupFirstAux seen l).Nodup := by
  intro l
  induction l with
  | nil => intro seen; simp [dedupFirstAux]
  | cons a l2 ih =>
    intro seen
    by_cases ha : a ∈ seen
    · rw [dedupFirstAux, if_pos ha]
      exact ih seen
    · rw [dedupFirstAux, if_neg ha]
      refine List.Nodup.cons ?_ (ih (a :: seen))
      intro hmem
      exact ((mem_dedupFirstAux l2 (a :: seen) a).mp hmem).2 (List.mem_cons_self a seen)

theorem nodup_dedupFirst {α : Type} [DecidableEq α] (l : List α) : (dedupFirst l).Nodup :=
  nodup_dedupFirstAux l []

theorem sublist_dedupFirstAux {α : Type} [DecidableEq α] :
    ∀ (l seen : List α), (dedupFirstAux seen l).Sublist l := by
  intro l
  induction l with
  | nil => intro seen; simp [dedupFirstAux]
  | cons a l2 ih =>
    intro seen
    by_cases ha : a ∈ seen
    · rw [dedupFirstAux, if_pos ha]
      exact (ih seen).cons a
    · rw [dedupFirstAux, if_neg ha]
      exact (ih (a :: seen)).cons₂ a

theorem sublist_dedupFirst {α : Type} [DecidableEq α] (l : List α) :
    (dedupFirst l).Sublist l :=
  sublist_dedupFirstAux l []

/-- Position of the first occurrence of `x` in a list (length of the list
when absent). -/
def firstIdx {α : Type} [DecidableEq α] (x : α) : List α → Nat
  | [] => 0
  | a :: l => if a = x then 0 else firstIdx x l + 1

theorem firstIdx_cons_self {α : Type} [DecidableEq α] (x : α) (l : List α) :
    firstIdx x (x :: l) = 0 := by simp [firstIdx]

theorem firstIdx_cons_ne {α : Type} [DecidableEq α] {a x : α} (l : List α) (h : a ≠ x) :
    firstIdx x (a :: l) = firstIdx x l + 1 := by simp [firstIdx, h]

theorem pairwise_firstIdx_dedupFirstAux {α : Type} [DecidableEq α] :
    ∀ (l seen : List α),
      (dedupFirstAux seen l).Pairwise (fun x y => firstIdx x l < firstIdx y l) := by
  intro l
  induction l with
  | nil => intro seen; simp [dedupFirstAux]
  | cons a l2 ih =>
    intro seen
    have lift : ∀ (s2 : List α), a ∉ dedupFirstAux s2 l2 →
        (dedupFirstAux s2 l2).Pairwise
          (fun x y => firstIdx x (a :: l2) < firstIdx y (a :: l2)) := by
      intro s2 hnot
      refine List.Pairwise.imp_of_mem ?_ (ih s2)
      intro x y hx hy hlt
      have hxa : a ≠ x := fun h => hnot (h ▸ hx)
      have hya : a ≠ y := fun h => hnot (h ▸ hy)
      rw [firstIdx_cons_ne l2 hxa, firstIdx_cons_ne l2 hya]
      omega
    by_cases ha : a ∈ seen
    · rw [dedupFirstAux, if_pos ha]
      refine lift seen ?_
      intro hmem
      exact ((mem_dedupFirstAux l2 seen a).mp hmem).2 ha
    · rw [dedupFirstAux, if_neg ha]
      refine List.Pairwise.cons ?_ (lift (a :: seen) ?_)
      · intro y hy
        have hya : a ≠ y := by
          intro h
          exact ((mem_dedupFirstAux l2 (a :: seen) y).mp hy).2 (h ▸ List.mem_cons_self a seen)
        rw [firstIdx_cons_self, firstIdx_cons_ne l2 hya]
        omega
      · intro hmem
        exact ((mem_dedupFirstAux l2 (a :: seen) a).mp hmem).2 (List.mem_cons_self a seen)

theorem pairwise_firstIdx_dedupFirst {α : Type} [DecidableEq α] (l : List α) :
    (dedupFirst l).Pairwise (fun x y => firstIdx x l < firstIdx y l) :=
  pairwise_firstIdx_dedupFirstAux l []

/-- C4 (counterexample): a two-part `" and "` combination name does not
receive the dash-joined forms, although it does receive the slash-joined
expansion — the `" and "`/`" & "` branch of the source omits the two
dash-joined permutations, so the expansion is not "the same" as the slash
expansion. -/
theorem c4_combination_expander_counterexample :
    jsIncludes ("alpha and beta".toList) (" and ".toList) = true ∧
    (splitOnSeq (" and ".toList) ("alpha and beta".toList)).map jsTrim
      = ["alpha".toList, "beta".toList] ∧
    ("alpha/beta".toList) ∈ generateCombinationPermutations ("alpha and beta".toList) ∧
    ("alpha-beta".toList) ∉ generateCombinationPermutations ("alpha and beta".toList) := by
  decide

/-- C4 (amended): the expander always keeps the original name; a name
containing `/` with exactly two trimmed parts additionally yields both
slash forms, both space forms, both dash forms and the two components; a
name containing `" and "` (or, failing that, `" & "`) with exactly two
parts yields both slash forms, both space forms and the two components
(but no dash forms); a name with none of the three separators passes
through as a singleton; and the output is de-duplicated keeping the first
occurrence, preserving first-occurrence order. -/
theorem c4_combination_expander_amended :
    ∀ name : Str,
      name ∈ generateCombinationPermutations name ∧
      (∀ p0 p1,
        jsIncludes name ("/".toList) = true →
        (splitOnSeq ("/".toList) name).map jsTrim = [p0, p1] →
        ∀ x ∈ [p0 ++ ("/".toList) ++ p1, p1 ++ ("/".toList) ++ p0,
               p0 ++ (" ".toList) ++ p1, p1 ++ (" ".toList) ++ p0,
               p0 ++ ("-".toList) ++ p1, p1 ++ ("-".toList) ++ p0, p0, p1],
          x ∈ generateCombinationPermutations name) ∧
      (∀ p0 p1,
        jsIncludes name (" and ".toList) = true →
        (splitOnSeq (" and ".toList) name).map jsTrim = [p0, p1] →
        ∀ x ∈ [p0 ++ ("/".toList) ++ p1, p1 ++ ("/".toList) ++ p0,
               p0 ++ (" ".toList) ++ p1, p1 ++ (" ".toList) ++ p0, p0, p1],
          x ∈ generateCombinationPermutations name) ∧
      (∀ p0 p1,
        jsIncludes name (" and ".toList) = false →
        jsIncludes name (" & ".toList) = true →
        (splitOnSeq (" & ".toList) name).map jsTrim = [p0, p1] →
        ∀ x ∈ [p0 ++ ("/".toList) ++ p1, p1 ++ ("/".toList) ++ p0,
               p0 ++ (" ".toList) ++ p1, p1 ++ (" ".toList) ++ p0, p0, p1],
          x ∈ generateCombinationPermutations name) ∧
      (jsIncludes name ("/".toList) = false →
        jsIncludes name (" and ".toList) = false →
        jsIncludes name (" & ".toList) = false →
        generateCombinationPermutations name = [name]) ∧
      (generateCombinationPermutations name).Nodup ∧
      (generateCombinationPermutations name).Sublist (rawCombinationPermutations name) ∧
      (generateCombinationPermutations name).Pairwise
        (fun x y => firstIdx x (rawCombinationPermutations name)
          < firstIdx y (rawCombinationPermutations name)) := by
  intro name
  refine ⟨?_, ?_, ?_, ?_, ?_, nodup_dedupFirst _, sublist_dedupFirst _,
    pairwise_firstIdx_dedupFirst _⟩
  · rw [generateCombinationPermutations, mem_dedupFirst, rawCombinationPermutations]
    simp
  · intro p0 p1 h1 hsplit x hx
    rw [generateCombinationPermutations, mem_dedupFirst]
    simp only [rawCombinationPermutations, h1, hsplit, if_true]
    fin_cases hx <;> simp [List.mem_cons, List.mem_append]
  · intro p0 p1 h1 hsplit x hx
    rw [generateCombinationPermutations, mem_dedupFirst]
    simp only [rawCombinationPermutations, h1, hsplit, Bool.true_or, if_true]
    fin_cases hx <;> simp [List.mem_cons, List.mem_append]
  · intro p0 p1 h1 h2 hsplit x hx
    rw [generateCombinationPermutations, mem_dedupFirst]
    simp only [rawCombinationPermutations, h1, h2, Bool.false_or, if_true, Bool.false_eq_true,
      if_false, hsplit]
    fin_cases hx <;> simp [List.mem_cons, List.mem_append]
  · intro h1 h2 h3
    rw [generateCombinationPermutations]
    simp only [rawCombinationPermutations, h1, h2, h3, Bool.false_or, Bool.false_eq_true,
      if_false]
    simp [dedupFirst, dedupFirstAux]

/-- C2 (failing input): for a mention that requested IR with dosage 500mg,
against a single candidate whose title carries the dosage and an explicit
ER label, `validateDosageAvailability` returns ER ("only ER formulation
available") — the post-hoc dosage-availability correction upgrades an
IR-requested medication to ER, contradicting both the claimed invariant
and the source's own comment "prefer IR, only use ER if explicitly
requested AND available" (src/server/services/openai.ts:449). -/
theorem c2_dosage_validator_upgrades_ir_to_er :
    validateDosageAvailability
      { name := "metformin".toList, dosage := some ("500mg".toList),
        formulation := Formulation.IR, deliveryMethod := none,
        fullContext := "Metformin 500mg twice daily".toList }
      [{ setId := some ("s1".toList), title := some ("Metformin ER 500mg Tablets".toList),
         genericName := none, brandName := none, labeler := none }]
      = { formulation := Formulation.ER,
          reasoning := "only ER formulation available".toList } := by
  decide

theorem strictAccept_formulation (m : MedicationMention) (r : DailyMedSearchResult)
    (h : (isAppropriateMatchWithReasons m r).isMatch = true) :
    (m.formulation = Formulation.IR → erIndicators (jsToLower (r.title.getD [])) = false) ∧
    (m.formulation = Formulation.ER → irIndicators (jsToLower (r.title.getD [])) = false) := by
  simp only [isAppropriateMatchWithReasons] at h
  split_ifs at h with h1 h2 h3 h4 h5 h6 h7 <;>
    first
      | exact Bool.noConfusion h
      | exact ⟨fun hf => by rw [hf] at h7; simpa using h7,
               fun hf => by rw [hf] at h6; simpa using h6⟩

theorem relaxedOk_formulation (m : MedicationMention) (r : DailyMedSearchResult)
    (h : relaxedCandidateOk m r = true) :
    (m.formulation = Formulation.IR → erIndicators (jsToLower (r.title.getD [])) = false) ∧
    (m.formulation = Formulation.ER → irIndicators (jsToLower (r.title.getD [])) = false) := by
  simp only [relaxedCandidateOk] at h
  split_ifs at h with h1 h2 <;>
    first
      | exact Bool.noConfusion h
      | exact ⟨fun hf => by rw [hf] at h; simpa using h,
               fun hf => by rw [hf] at h; simpa using h⟩

theorem scanCandidates_fst (m : MedicationMention) :
    ∀ l : List DailyMedSearchResult,
      (scanCandidates m l).1 = l.find? fun r => (isAppropriateMatchWithReasons m r).isMatch := by
  intro l
  induction l with
  | nil => simp [scanCandidates]
  | cons a l2 ih =>
    simp only [scanCandidates, List.find?_cons]
    by_cases hv : (isAppropriateMatchWithReasons m a).isMatch
    · rw [if_pos hv, hv]
    · rw [if_neg hv, ih]
      rw [Bool.not_eq_true] at hv
      rw [hv]

/-- Specification of the strict loop's accepted candidate: the first term
whose top-3 candidates contain a strict accept, paired with that term. -/
def firstStrictAccept (search : Str → Except Str (List DailyMedSearchResult))
    (m : MedicationMention) : List Str → Option (DailyMedSearchResult × Str)
  | [] => none
  | t :: ts =>
    match search t with
    | .error _ => firstStrictAccept search m ts
    | .ok rs =>
      match (rs.take 3).find? (fun r => (isAppropriateMatchWithReasons m r).isMatch) with
      | some r => some (r, t)
      | none => firstStrictAccept search m ts

/-- Specification of the queries the strict loop sends: every term up to
and including the first accepted one. -/
def strictQueries (search : Str → Except Str (List DailyMedSearchResult))
    (m : MedicationMention) : List Str → List Str
  | [] => []
  | t :: ts =>
    t :: (match search t with
      | .error _ => strictQueries search m ts
      | .ok rs =>
        match (rs.take 3).find? (fun r => (isAppropriateMatchWithReasons m r).isMatch) with
        | some _ => []
        | none => strictQueries search m ts)

theorem strictLoop_hit (search : Str → Except Str (List DailyMedSearchResult))
    (m : MedicationMention) : ∀ ts,
      (strictLoop search m ts).hit = firstStrictAccept search m ts := by
  intro ts
  induction ts with
  | nil => rfl
  | cons t ts ih =>
    simp only [strictLoop, firstStrictAccept]
    cases hs : search t with
    | error e => exact ih
    | ok rs =>
      dsimp only
      rw [← scanCandidates_fst m (rs.take 3)]
      cases hscan : (scanCandidates m (rs.take 3)).1 with
      | some r => simp [hscan]
      | none => simp only [hscan]; exact ih

theorem strictLoop_queries (search : Str → Except Str (List DailyMedSearchResult))
    (m : MedicationMention) : ∀ ts,
      (strictLoop search m ts).queries = strictQueries search m ts := by
  intro ts
  induction ts with
  | nil => rfl
  | cons t ts ih =>
    simp only [strictLoop, strictQueries]
    cases hs : search t with
    | error e => dsimp only; rw [ih]
    | ok rs =>
      dsimp only
      rw [← scanCandidates_fst m (rs.take 3)]
      cases hscan : (scanCandidates m (rs.take 3)).1 with
      | some r => simp [hscan]
      | none => simp only [hscan]; rw [ih]

theorem strictLoop_log_terms (search : Str → Except Str (List DailyMedSearchResult))
    (m : MedicationMention) : ∀ ts,
      ((strictLoop search m ts).log).map (fun ent => ent.searchTerm)
        = (strictLoop search m ts).queries := by
  intro ts
  induction ts with
  | nil => rfl
  | cons t ts ih =>
    simp only [strictLoop]
    cases hs : search t with
    | error e => simpa [searchErrEntry] using ih
    | ok rs =>
      dsimp only
      cases hscan : (scanCandidates m (rs.take 3)).1 with
      | some r => simp [hscan, strictTermEntry]
      | none => simp only [hscan]; simpa [strictTermEntry] using ih

/-- Specification of the relaxed loop's accepted candidate. -/
def firstRelaxedAccept (search : Str → Except Str (List DailyMedSearchResult))
    (m : MedicationMention) : List Str → Option (DailyMedSearchResult × Str)
  | [] => none
  | t :: ts =>
    match search t with
    | .error _ => firstRelaxedAccept search m ts
    | .ok rs =>
      match (rs.take 10).find? (relaxedCandidateOk m) with
      | some r => some (r, t ++ (" (relaxed)".toList))
      | none => firstRelaxedAccept search m ts

/-- Specification of the queries the relaxed loop sends. -/
def relaxedQueries (search : Str → Except Str (List DailyMedSearchResult))
    (m : MedicationMention) : List Str → List Str
  | [] => []
  | t :: ts =>
    t :: (match search t with
      | .error _ => relaxedQueries search m ts
      | .ok rs =>
        match (rs.take 10).find? (relaxedCandidateOk m) with
        | some _ => []
        | none => relaxedQueries search m ts)

theorem relaxedLoop_hit (search : Str → Except Str (List DailyMedSearchResult))
    (m : MedicationMention) : ∀ ts,
      (relaxedLoop search m ts).hit = firstRelaxedAccept search m ts := by
  intro ts
  induction ts with
  | nil => rfl
  | cons t ts ih =>
    simp only [relaxedLoop, firstRelaxedAccept]
    cases hs : search t with
    | error e => exact ih
    | ok rs =>
      dsimp only
      cases hfind : (rs.take 10).find? (relaxedCandidateOk m) with
      | some r => simp [hfind]
      | none => simp only [hfind]; exact ih

theorem relaxedLoop_queries (search : Str → Except Str (List DailyMedSearchResult))
    (m : MedicationMention) : ∀ ts,
      (relaxedLoop search m ts).queries = relaxedQueries search m ts := by
  intro ts
  induction ts with
  | nil => rfl
  | cons t ts ih =>
    simp only [relaxedLoop, relaxedQueries]
    cases hs : search t with
    | error e => dsimp only; rw [ih]
    | ok rs =>
      dsimp only
      cases hfind : (rs.take 10).find? (relaxedCandidateOk m) with
      | some r => simp [hfind]
      | none => simp only [hfind]; rw [ih]

theorem relaxedLoop_log_terms (search : Str → Except Str (List DailyMedSearchResult))
    (m : MedicationMention) : ∀ ts,
      ((relaxedLoop search m ts).log).map (fun ent => ent.searchTerm)
        = (match (relaxedLoop search m ts).hit with
            | some (_, t2) => [t2]
            | none => []) := by
  intro ts
  induction ts with
  | nil => rfl
  | cons t ts ih =>
    simp only [relaxedLoop]
    cases hs : search t with
    | error e => dsimp only; exact ih
    | ok rs =>
      dsimp only
      cases hfind : (rs.take 10).find? (relaxedCandidateOk m) with
      | some r => simp [hfind, relaxedSuccessEntry]
      | none => simp only [hfind]; exact ih

theorem firstStrictAccept_some (search : Str → Except Str (List DailyMedSearchResult))
    (m : MedicationMention) : ∀ ts r t,
      firstStrictAccept search m ts = some (r, t) →
        (isAppropriateMatchWithReasons m r).isMatch = true := by
  intro ts
  induction ts with
  | nil => intro r t h; cases h
  | cons t0 ts ih =>
    intro r t h
    simp only [firstStrictAccept] at h
    cases hs : search t0 with
    | error e =>
      rw [hs] at h
      dsimp only at h
      exact ih r t h
    | ok rs =>
      rw [hs] at h
      dsimp only at h
      cases hfind : (rs.take 3).find? (fun r2 => (isAppropriateMatchWithReasons m r2).isMatch) with
      | some r2 =>
        rw [hfind] at h
        cases h
        have hp := List.find?_some hfind
        simpa using hp
      | none =>
        rw [hfind] at h
        exact ih r t h

theorem firstRelaxedAccept_some (search : Str → Except Str (List DailyMedSearchResult))
    (m : MedicationMention) : ∀ ts r t,
      firstRelaxedAccept search m ts = some (r, t) → relaxedCandidateOk m r = true := by
  intro ts
  induction ts with
  | nil => intro r t h; cases h
  | cons t0 ts ih =>
    intro r t h
    simp only [firstRelaxedAccept] at h
    cases hs : search t0 with
    | error e =>
      rw [hs] at h
      dsimp only at h
      exact ih r t h
    | ok rs =>
      rw [hs] at h
      dsimp only at h
      cases hfind : (rs.take 10).find? (relaxedCandidateOk m) with
      | some r2 =>
        rw [hfind] at h
        cases h
        have hp := List.find?_some hfind
        simpa using hp
      | none =>
        rw [hfind] at h
        exact ih r t h

/-- The first accepted candidate for a mention: strict pass first, then
the relaxed fallback. -/
def firstAcceptedCandidate (search : Str → Except Str (List DailyMedSearchResult))
    (m : MedicationMention) : Option (DailyMedSearchResult × Str) :=
  match firstStrictAccept search m (generateSearchTerms m) with
  | some p => some p
  | none => firstRelaxedAccept search m (relaxedSearchTerms m)

theorem processOneMention_result (search : Str → Except Str (List DailyMedSearchResult))
    (m : MedicationMention) :
    (processOneMention search m).result
      = (firstAcceptedCandidate search m).map (fun p => toDetails m p.1) := by
  simp only [processOneMention, firstAcceptedCandidate, tryRelaxedSearch]
  rw [strictLoop_hit]
  cases h1 : firstStrictAccept search m (generateSearchTerms m) with
  | some p => rfl
  | none =>
    rw [relaxedLoop_hit]
    cases h2 : firstRelaxedAccept search m (relaxedSearchTerms m) with
    | some p => rfl
    | none => rfl

theorem processOneMention_queries (search : Str → Except Str (List DailyMedSearchResult))
    (m : MedicationMention) :
    (processOneMention search m).queries
      = strictQueries search m (generateSearchTerms m)
        ++ (match firstStrictAccept search m (generateSearchTerms m) with
            | some _ => []
            | none => relaxedQueries search m (relaxedSearchTerms m)) := by
  simp only [processOneMention, tryRelaxedSearch]
  rw [strictLoop_hit]
  cases h1 : firstStrictAccept search m (generateSearchTerms m) with
  | some p =>
    obtain ⟨r, t⟩ := p
    simp [strictLoop_queries]
  | none =>
    dsimp only
    cases h2 : (relaxedLoop search m (relaxedSearchTerms m)).hit with
    | some p =>
      obtain ⟨r, t⟩ := p
      simp [h2, strictLoop_queries, relaxedLoop_queries]
    | none =>
      simp [h2, strictLoop_queries, relaxedLoop_queries]

theorem processOneMention_log_terms (search : Str → Except Str (List DailyMedSearchResult))
    (m : MedicationMention) :
    ((processOneMention search m).log).map (fun ent => ent.searchTerm)
      = strictQueries search m (generateSearchTerms m)
        ++ (match firstStrictAccept search m (generateSearchTerms m) with
            | some _ => []
            | none =>
              match firstRelaxedAccept search m (relaxedSearchTerms m) with
              | some (_, t2) => [t2]
              | none => [("SEARCH_FAILED".toList)]) := by
  simp only [processOneMention, tryRelaxedSearch]
  rw [strictLoop_hit]
  cases h1 : firstStrictAccept search m (generateSearchTerms m) with
  | some p =>
    obtain ⟨r, t⟩ := p
    dsimp only
    rw [strictLoop_log_terms, strictLoop_queries, List.append_nil]
  | none =>
    dsimp only
    have hrl := relaxedLoop_log_terms search m (relaxedSearchTerms m)
    rw [relaxedLoop_hit] at hrl
    cases h2 : firstRelaxedAccept search m (relaxedSearchTerms m) with
    | some p =>
      obtain ⟨r, t2⟩ := p
      rw [h2] at hrl
      rw [relaxedLoop_hit, h2]
      dsimp only
      rw [List.map_append, strictLoop_log_terms, strictLoop_queries, hrl]
    | none =>
      rw [h2] at hrl
      rw [relaxedLoop_hit, h2]
      dsimp only
      rw [List.map_append, List.map_append, strictLoop_log_terms, strictLoop_queries, hrl]
      simp [failEntry]

theorem processOneMention_some (search : Str → Except Str (List DailyMedSearchResult))
    (m : MedicationMention) (d : DailyMedDetails)
    (h : (processOneMention search m).result = some d) :
    ∃ r, d = toDetails m r ∧
      ((isAppropriateMatchWithReasons m r).isMatch = true ∨ relaxedCandidateOk m r = true) := by
  rw [processOneMention_result] at h
  cases hf : firstAcceptedCandidate search m with
  | none =>
    rw [hf] at h
    cases h
  | some p =>
    obtain ⟨r0, t0⟩ := p
    rw [hf] at h
    have h3 : some (toDetails m r0) = some d := h
    injection h3 with h4
    refine ⟨r0, h4.symm, ?_⟩
    rw [firstAcceptedCandidate] at hf
    cases hs : firstStrictAccept search m (generateSearchTerms m) with
    | some q =>
      rw [hs] at hf
      cases hf
      exact Or.inl (firstStrictAccept_some search m _ r0 t0 hs)
    | none =>
      rw [hs] at hf
      exact Or.inr (firstRelaxedAccept_some search m _ r0 t0 hf)

theorem runMentions_append (step : MedicationMention → Except Str MentionOut) :
    ∀ l1 l2 : List MedicationMention,
      runMentions step (l1 ++ l2)
        = ⟨(runMentions step l1).results ++ (runMentions step l2).results,
           (runMentions step l1).searchLog ++ (runMentions step l2).searchLog,
           (runMentions step l1).queries ++ (runMentions step l2).queries⟩ := by
  intro l1 l2
  induction l1 with
  | nil => rfl
  | cons m ms ih =>
    simp only [List.cons_append, runMentions]
    cases hs : step m with
    | ok out => simp [ih, List.append_assoc]
    | error e => simp [ih]

theorem searchMultipleMedications_results (search : Str → Except Str (List DailyMedSearchResult)) :
    ∀ ms : List MedicationMention,
      (searchMultipleMedications search ms).results
        = ms.filterMap (fun m => (processOneMention search m).result) := by
  intro ms
  induction ms with
  | nil => rfl
  | cons m ms ih =>
    simp only [searchMultipleMedications, runMentions, List.filterMap_cons] at *
    cases hr : (processOneMention search m).result with
    | none => simpa [hr, Option.toList] using ih
    | some d => simpa [hr, Option.toList] using ih

theorem searchMultipleMedications_log (search : Str → Except Str (List DailyMedSearchResult)) :
    ∀ ms : List MedicationMention,
      (searchMultipleMedications search ms).searchLog
        = ms.flatMap (fun m => (processOneMention search m).log) := by
  intro ms
  induction ms with
  | nil => rfl
  | cons m ms ih =>
    simp only [searchMultipleMedications, runMentions, List.flatMap_cons] at *
    rw [ih]

theorem strictAccept_not_vet (m : MedicationMention) (r : DailyMedSearchResult)
    (h : (isAppropriateMatchWithReasons m r).isMatch = true) :
    (vetKeywords.any fun keyword =>
      jsIncludes (jsToLower (r.title.getD [])) keyword ||
      jsIncludes (jsToLower (r.labeler.getD [])) keyword) = false := by
  simp only [isAppropriateMatchWithReasons] at h
  split_ifs at h with h1 h2 h3 h4 h5 h6 h7 <;>
    first
      | exact Bool.noConfusion h
      | simpa using h2

theorem relaxedOk_not_vet (m : MedicationMention) (r : DailyMedSearchResult)
    (h : relaxedCandidateOk m r = true) :
    (vetKeywords.any fun keyword =>
      jsIncludes (jsToLower (r.title.getD [])) keyword ||
      jsIncludes (jsToLower (r.labeler.getD [])) keyword) = false := by
  simp only [relaxedCandidateOk] at h
  split_ifs at h with h1 h2 <;>
    first
      | exact Bool.noConfusion h
      | simpa using h1

/-- Sample mention and candidates used by the witnesses. -/
def mentionMetforminIR : MedicationMention :=
  { name := "metformin".toList, dosage := some ("500mg".toList), formulation := .IR,
    deliveryMethod := none, fullContext := "Metformin 500mg twice daily".toList }

def mentionLisinoprilIR : MedicationMention :=
  { name := "lisinopril".toList, dosage := some ("10mg".toList), formulation := .IR,
    deliveryMethod := none, fullContext := "Lisinopril 10mg daily".toList }

def mentionUnobtainium : MedicationMention :=
  { name := "unobtainium".toList, dosage := none, formulation := .IR,
    deliveryMethod := none, fullContext := [] }

def resultMetforminTablets : DailyMedSearchResult :=
  { setId := some ("s1".toList), title := some ("Metformin Hydrochloride Tablets".toList),
    genericName := some ("metformin hydrochloride".toList), brandName := none,
    labeler := some ("Bryant Ranch Prepack".toList) }

def resultLisinoprilTablets : DailyMedSearchResult :=
  { setId := some ("s2".toList), title := some ("Lisinopril Tablets".toList),
    genericName := some ("lisinopril".toList), brandName := none,
    labeler := some ("Mylan Pharmaceuticals".toList) }

def resultVetMetformin : DailyMedSearchResult :=
  { setId := some ("s3".toList), title := some ("Metformin Canine Chewable Tablets".toList),
    genericName := none, brandName := none,
    labeler := some ("ZyVet Animal Health".toList) }

/-- C3: a formulation conflict is never accepted: if the strict matcher
accepts, or the relaxed pass accepts, then an IR mention's candidate title
does not match the ER lexicon and an ER mention's title does not match the
IR lexicon; consequently any resolved result's title is conflict-free. -/
theorem c3_formulation_conflict_never_accepted :
    ∀ (m : MedicationMention) (r : DailyMedSearchResult),
      ((isAppropriateMatchWithReasons m r).isMatch = true ∨ relaxedCandidateOk m r = true →
        (m.formulation = Formulation.IR → erIndicators (jsToLower (r.title.getD [])) = false) ∧
        (m.formulation = Formulation.ER → irIndicators (jsToLower (r.title.getD [])) = false)) ∧
      (∀ (search : Str → Except Str (List DailyMedSearchResult)) (d : DailyMedDetails),
        (processOneMention search m).result = some d →
        (m.formulation = Formulation.IR → erIndicators (jsToLower (d.title.getD [])) = false) ∧
        (m.formulation = Formulation.ER → irIndicators (jsToLower (d.title.getD [])) = false)) := by
  intro m r
  constructor
  · rintro (h | h)
    · exact strictAccept_formulation m r h
    · exact relaxedOk_formulation m r h
  · intro search d hd
    obtain ⟨r2, rfl, hacc⟩ := processOneMention_some search m d hd
    rcases hacc with h | h
    · exact strictAccept_formulation m r2 h
    · exact relaxedOk_formulation m r2 h

/-- C3 witness at a concrete accepted IR candidate. -/
theorem c3_formulation_conflict_never_accepted_witness :
    erIndicators (jsToLower (resultMetforminTablets.title.getD [])) = false :=
  ((c3_formulation_conflict_never_accepted mentionMetforminIR resultMetforminTablets).1
    (Or.inl (by decide))).1 rfl

/-- C6: a candidate whose title or labeler contains a veterinary keyword is
rejected by the strict matcher, skipped by the relaxed pass, and no such
candidate can appear as a resolved result. -/
theorem c6_veterinary_candidates_never_accepted :
    ∀ (m : MedicationMention) (r : DailyMedSearchResult),
      (vetKeywords.any fun keyword =>
        jsIncludes (jsToLower (r.title.getD [])) keyword ||
        jsIncludes (jsToLower (r.labeler.getD [])) keyword) = true →
      (isAppropriateMatchWithReasons m r).isMatch = false ∧
      relaxedCandidateOk m r = false ∧
      (∀ (search : Str → Except Str (List DailyMedSearchResult)) (d : DailyMedDetails),
        (processOneMention search m).result = some d →
        (vetKeywords.any fun keyword =>
          jsIncludes (jsToLower (d.title.getD [])) keyword ||
          jsIncludes (jsToLower (d.labeler.getD [])) keyword) = false) := by
  intro m r hvet
  refine ⟨?_, ?_, ?_⟩
  · simp only [isAppropriateMatchWithReasons]
    split_ifs with h1 h2 h3 h4 h5 h6 h7 <;> first | rfl | exact absurd hvet h2
  · simp only [relaxedCandidateOk]
    split_ifs with h1 h2 <;> first | rfl | exact absurd hvet h1
  · intro search d hd
    obtain ⟨r2, rfl, hacc⟩ := processOneMention_some search m d hd
    rcases hacc with h | h
    · exact strictAccept_not_vet m r2 h
    · exact relaxedOk_not_vet m r2 h

/-- C6 witness at a concrete veterinary candidate. -/
theorem c6_veterinary_candidates_never_accepted_witness :
    (isAppropriateMatchWithReasons mentionMetforminIR resultVetMetformin).isMatch = false ∧
    relaxedCandidateOk mentionMetforminIR resultVetMetformin = false :=
  ⟨(c6_veterinary_candidates_never_accepted mentionMetforminIR resultVetMetformin
      (by decide)).1,
   (c6_veterinary_candidates_never_accepted mentionMetforminIR resultVetMetformin
      (by decide)).2.1⟩

/-- C7: per mention the resolver yields at most one result, namely the
first accepted candidate (first term whose top-3 candidates pass strict
matching, else the first relaxed acceptance); the query trace stops at the
accepting term; and the batch result list is the filter-map of the
per-mention results, so every mention contributes at most one entry. -/
theorem c7_first_accepted_candidate_wins :
    ∀ (search : Str → Except Str (List DailyMedSearchResult)) (m : MedicationMention)
      (ms : List MedicationMention),
      (processOneMention search m).result
        = (firstAcceptedCandidate search m).map (fun p => toDetails m p.1) ∧
      (processOneMention search m).queries
        = strictQueries search m (generateSearchTerms m)
          ++ (match firstStrictAccept search m (generateSearchTerms m) with
              | some _ => []
              | none => relaxedQueries search m (relaxedSearchTerms m)) ∧
      (searchMultipleMedications search ms).results
        = ms.filterMap (fun m2 => (processOneMention search m2).result) :=
  fun search m ms =>
    ⟨processOneMention_result search m, processOneMention_queries search m,
     searchMultipleMedications_results search ms⟩

/-- The always-empty stub collaborator used by the C8 counterexample. -/
def emptySearch : Str → Except Str (List DailyMedSearchResult) := fun _ => Except.ok []

def mentionAbcDef : MedicationMention :=
  { name := "abc-def".toList, dosage := none, formulation := .IR,
    deliveryMethod := none, fullContext := [] }

/-- C8 (counterexample): the relaxed fallback attempts the query `"abc"`
(the first hyphen segment of the mention name, recorded in the query
trace), yet the returned log contains no entry for it under either
spelling — failed relaxed attempts are not logged, so the log is not a
complete record of every term tried. -/
theorem c8_search_log_counterexample :
    ("abc".toList) ∈ (processOneMention emptySearch mentionAbcDef).queries ∧
    ∀ ent ∈ (processOneMention emptySearch mentionAbcDef).log,
      ent.searchTerm ≠ ("abc".toList) ∧ ent.searchTerm ≠ ("abc (relaxed)".toList) := by
  decide

/-- C8 (amended): the log's search terms are exactly the strict-pass
queries (one entry per strict term attempted, in order), followed — when
no strict term accepted — by one entry for the successful relaxed term if
any, else the terminal `SEARCH_FAILED` entry; failed relaxed attempts
leave no entry. Across a batch the log is the in-order concatenation of
the per-mention logs. -/
theorem c8_search_log_amended :
    ∀ (search : Str → Except Str (List DailyMedSearchResult)) (m : MedicationMention)
      (ms : List MedicationMention),
      ((processOneMention search m).log).map (fun ent => ent.searchTerm)
        = strictQueries search m (generateSearchTerms m)
          ++ (match firstStrictAccept search m (generateSearchTerms m) with
              | some _ => []
              | none =>
                match firstRelaxedAccept search m (relaxedSearchTerms m) with
                | some (_, t2) => [t2]
                | none => [("SEARCH_FAILED".toList)]) ∧
      (searchMultipleMedications search ms).searchLog
        = ms.flatMap (fun m2 => (processOneMention search m2).log) :=
  fun search m ms =>
    ⟨processOneMention_log_terms search m, searchMultipleMedications_log search ms⟩

/-- The collaborator of the C9 scenario: every query for the second
mention's name fails with a transient error; queries for the other two
names succeed. -/
def scenarioSearch : Str → Except Str (List DailyMedSearchResult) := fun t =>
  if jsIncludes t ("unobtainium".toList) then Except.error ("network failure".toList)
  else if jsIncludes t ("metformin".toList) then Except.ok [resultMetforminTablets]
  else if jsIncludes t ("lisinopril".toList) then Except.ok [resultLisinoprilTablets]
  else Except.ok []

/-- C9: an exception from one mention's processing is caught at the
mention level, logged as a `PROCESSING_ERROR` entry in place, and the
surrounding mentions are processed exactly as without it; and in the
concrete scenario of a 3-mention batch whose 2nd mention's every search
term fails with a collaborator error, the batch still resolves the 1st
and 3rd mentions, while the 2nd contributes one error entry per attempted
term plus the terminal `SEARCH_FAILED` entry. -/
theorem c9_processing_error_isolation :
    (∀ (step : MedicationMention → Except Str MentionOut)
      (ms1 : List MedicationMention) (m : MedicationMention) (ms2 : List MedicationMention)
      (e : Str),
      step m = Except.error e →
      (runMentions step (ms1 ++ m :: ms2)).results
        = (runMentions step ms1).results ++ (runMentions step ms2).results ∧
      (runMentions step (ms1 ++ m :: ms2)).searchLog
        = (runMentions step ms1).searchLog
          ++ processingErrEntry m e :: (runMentions step ms2).searchLog) ∧
    ((searchMultipleMedications scenarioSearch
        [mentionMetforminIR, mentionUnobtainium, mentionLisinoprilIR]).results).map
        (fun d => d.title)
      = [some ("Metformin Hydrochloride Tablets".toList),
         some ("Lisinopril Tablets".toList)] ∧
    ((searchMultipleMedications scenarioSearch
        [mentionMetforminIR, mentionUnobtainium, mentionLisinoprilIR]).searchLog.filter
        (fun ent => ent.medication == ("unobtainium".toList))).map
        (fun ent => ent.searchTerm)
      = ["unobtainium immediate release".toList, "unobtainium ir".toList,
         "unobtainium".toList, "SEARCH_FAILED".toList] := by
  refine ⟨?_, by decide, by decide⟩
  intro step ms1 m ms2 e h
  rw [runMentions_append]
  constructor
  · simp only [runMentions, h]
  · simp only [runMentions, h]

/-- The step function of the C9 witness: the second mention's processing
raises; the others run the normal body. -/
def faultyStep : MedicationMention → Except Str MentionOut := fun m2 =>
  if m2.name == ("unobtainium".toList) then Except.error ("boom".toList)
  else Except.ok (processOneMention scenarioSearch m2)

/-- C9 witness: the generic catch-and-continue property applied to a
concrete 3-mention batch whose middle mention's step raises. -/
theorem c9_processing_error_isolation_witness :
    (runMentions faultyStep ([mentionMetforminIR] ++ mentionUnobtainium :: [mentionLisinoprilIR])).results
      = (runMentions faultyStep [mentionMetforminIR]).results
        ++ (runMentions faultyStep [mentionLisinoprilIR]).results ∧
    (runMentions faultyStep ([mentionMetforminIR] ++ mentionUnobtainium :: [mentionLisinoprilIR])).searchLog
      = (runMentions faultyStep [mentionMetforminIR]).searchLog
        ++ processingErrEntry mentionUnobtainium ("boom".toList)
          :: (runMentions faultyStep [mentionLisinoprilIR]).searchLog :=
  c9_processing_error_isolation.1 faultyStep [mentionMetforminIR] mentionUnobtainium
    [mentionLisinoprilIR] ("boom".toList) rfl

theorem insertByPharma_of_human (a : RawSplItem) (h : isHumanPharma a.labeler = true) :
    ∀ l, insertByPharma a l = a :: l := by
  intro l
  cases l with
  | nil => rfl
  | cons b l2 => simp [insertByPharma, h]

theorem insertByPharma_skip (a : RawSplItem) (h : isHumanPharma a.labeler = false) :
    ∀ F N : List RawSplItem,
      (∀ b ∈ F, isHumanPharma b.labeler = true) →
      (∀ b ∈ N, isHumanPharma b.labeler = false) →
      insertByPharma a (F ++ N) = F ++ a :: N := by
  intro F
  induction F with
  | nil =>
    intro N _ hN
    cases N with
    | nil => rfl
    | cons b N2 =>
      have hb := hN b (List.mem_cons_self b N2)
      simp [insertByPharma, hb]
  | cons b F2 ih =>
    intro N hF hN
    have hb := hF b (List.mem_cons_self b F2)
    simp only [List.cons_append, insertByPharma, hb, h, Bool.not_false, Bool.and_true,
      if_true]
    exact congrArg (fun x => b :: x) (ih N (fun x hx => hF x (List.mem_cons_of_mem b hx)) hN)

theorem sortByPharma_eq :
    ∀ l : List RawSplItem,
      sortByPharma l
        = l.filter (fun it => isHumanPharma it.labeler)
          ++ l.filter (fun it => !isHumanPharma it.labeler) := by
  intro l
  induction l with
  | nil => rfl
  | cons a l2 ih =>
    simp only [sortByPharma, ih, List.filter_cons]
    cases ha : isHumanPharma a.labeler with
    | true =>
      simp only [ha, Bool.not_true, if_true, if_false]
      rw [insertByPharma_of_human a ha]
      rfl
    | false =>
      simp only [ha, Bool.not_false, Bool.false_eq_true, if_true, if_false]
      rw [insertByPharma_skip a ha (l2.filter (fun it => isHumanPharma it.labeler))
          (l2.filter (fun it => !isHumanPharma it.labeler))
          (fun b hb => (List.mem_filter.mp hb).2)
          (fun b hb => by simpa using (List.mem_filter.mp hb).2)]

/-- C10: `searchMedications` returns at most 5 records, none of them
veterinary-flagged, and the output is exactly the vet-filtered payload
stably partitioned with human-pharma labelers first, truncated to 5 and
projected — so candidate order may differ from the collaborator's
ranking. -/
theorem c10_searchMedications_shape :
    ∀ payload : List RawSplItem,
      (searchMedications payload).length ≤ 5 ∧
      (∀ r ∈ searchMedications payload, vetFlagged r.title r.labeler = false) ∧
      searchMedications payload
        = ((((payload.filter fun it => !vetFlagged it.title it.labeler).filter
              fun it => isHumanPharma it.labeler)
            ++ ((payload.filter fun it => !vetFlagged it.title it.labeler).filter
              fun it => !isHumanPharma it.labeler)).take 5).map
            (fun it =>
              { setId := it.setid, title := it.title, genericName := it.generic_name,
                brandName := it.brand_name, labeler := it.labeler }) := by
  intro payload
  have heq : searchMedications payload
      = ((((payload.filter fun it => !vetFlagged it.title it.labeler).filter
            fun it => isHumanPharma it.labeler)
          ++ ((payload.filter fun it => !vetFlagged it.title it.labeler).filter
            fun it => !isHumanPharma it.labeler)).take 5).map
          (fun it =>
            { setId := it.setid, title := it.title, genericName := it.generic_name,
              brandName := it.brand_name, labeler := it.labeler }) := by
    rw [searchMedications, sortByPharma_eq]
  refine ⟨?_, ?_, heq⟩
  · rw [searchMedications]
    simp only [List.length_map]
    exact le_trans (List.length_take_le 5 _) (le_refl 5)
  · intro r hr
    rw [searchMedications] at hr
    obtain ⟨it, hit, rfl⟩ := List.mem_map.mp hr
    have hit2 : it ∈ sortByPharma (payload.filter fun it => !vetFlagged it.title it.labeler) :=
      List.mem_of_mem_take hit
    rw [sortByPharma_eq] at hit2
    rcases List.mem_append.mp hit2 with hit3 | hit3 <;>
      simpa using (List.mem_filter.mp (List.mem_filter.mp hit3).1).2

def payloadSample : List RawSplItem :=
  [{ setid := some ("p1".toList), title := some ("Metformin Veterinary Chew".toList),
     generic_name := none, brand_name := none, labeler := some ("ZyVet Animal Health".toList) },
   { setid := some ("p2".toList), title := some ("Metformin Hydrochloride Tablets".toList),
     generic_name := some ("metformin".toList), brand_name := none,
     labeler := some ("Cadence Labs".toList) },
   { setid := some ("p3".toList), title := some ("Metformin ER Tablets".toList),
     generic_name := some ("metformin".toList), brand_name := none,
     labeler := some ("Pfizer Inc".toList) }]

/-- C10 witness at a concrete payload: the Pfizer-labeled record is
reordered ahead and is vet-free. -/
theorem c10_searchMedications_shape_witness :
    vetFlagged (some ("Metformin ER Tablets".toList)) (some ("Pfizer Inc".toList)) = false :=
  (c10_searchMedications_shape payloadSample).2.1
    { setId := some ("p3".toList), title := some ("Metformin ER Tablets".toList),
      genericName := some ("metformin".toList), brandName := none,
      labeler := some ("Pfizer Inc".toList) } (by decide)

theorem uint32_le_iff_toNat_le (a b : UInt32) : a ≤ b ↔ a.toNat ≤ b.toNat := Iff.rfl

theorem toLower_isUpper (c : Char) : (c.toLower).isUpper = false := by
  show (if c.toNat ≥ 65 ∧ c.toNat ≤ 90 then Char.ofNat (c.toNat + 32) else c).isUpper = false
  split
  · next h =>
    obtain ⟨h1, h2⟩ := h
    generalize hn : Char.toNat c = n at h1 h2
    interval_cases n <;> decide
  · next h =>
    rw [not_and_or] at h
    simp only [Char.isUpper, Bool.and_eq_false_iff, ge_iff_le, decide_eq_false_iff_not]
    rcases h with h | h
    · exact Or.inl (fun hle => h ((uint32_le_iff_toNat_le _ _).mp hle))
    · exact Or.inr (fun hle => h ((uint32_le_iff_toNat_le _ _).mp hle))

/-- No ASCII-uppercase character occurs in the string. -/
def NoUpper (t : Str) : Prop := ∀ c ∈ t, c.isUpper = false

instance (t : Str) : Decidable (NoUpper t) := List.decidableBAll _ t

theorem noUpper_append {a b : Str} (ha : NoUpper a) (hb : NoUpper b) : NoUpper (a ++ b) := by
  intro c hc
  rcases List.mem_append.mp hc with hc | hc
  · exact ha c hc
  · exact hb c hc

theorem noUpper_jsToLower (s : Str) : NoUpper (jsToLower s) := by
  intro c hc
  obtain ⟨c2, -, rfl⟩ := List.mem_map.mp hc
  exact toLower_isUpper c2

theorem noUpper_of_subset {t s : Str} (h : ∀ c ∈ t, c ∈ s) (hs : NoUpper s) : NoUpper t :=
  fun c hc => hs c (h c hc)

theorem splitOnSeqAux_chars (sep : Str) :
    ∀ (fuel : Nat) (acc s chunk : Str), chunk ∈ splitOnSeqAux sep fuel acc s →
      ∀ c ∈ chunk, c ∈ acc ∨ c ∈ s := by
  intro fuel
  induction fuel with
  | zero =>
    intro acc s chunk hchunk c hc
    cases s with
    | nil =>
      simp only [splitOnSeqAux, List.mem_singleton] at hchunk
      subst hchunk
      exact Or.inl (List.mem_reverse.mp hc)
    | cons d s2 =>
      simp only [splitOnSeqAux, List.mem_singleton] at hchunk
      subst hchunk
      rcases List.mem_append.mp hc with hc | hc
      · exact Or.inl (List.mem_reverse.mp hc)
      · exact Or.inr hc
  | succ fuel ih =>
    intro acc s chunk hchunk c hc
    cases s with
    | nil =>
      simp only [splitOnSeqAux, List.mem_singleton] at hchunk
      subst hchunk
      exact Or.inl (List.mem_reverse.mp hc)
    | cons d s2 =>
      simp only [splitOnSeqAux] at hchunk
      split at hchunk
      · rcases List.mem_cons.mp hchunk with rfl | hchunk
        · exact Or.inl (List.mem_reverse.mp hc)
        · rcases ih [] (List.drop (sep.length - 1) s2) chunk hchunk c hc with h | h
          · cases h
          · exact Or.inr (List.mem_cons_of_mem d (List.drop_subset _ s2 h))
      · rcases ih (d :: acc) s2 chunk hchunk c hc with h | h
        · rcases List.mem_cons.mp h with rfl | h
          · exact Or.inr (List.mem_cons_self c s2)
          · exact Or.inl h
        · exact Or.inr (List.mem_cons_of_mem d h)

theorem splitOnSeq_chars (sep s chunk : Str) (h : chunk ∈ splitOnSeq sep s) :
    ∀ c ∈ chunk, c ∈ s := by
  intro c hc
  rcases splitOnSeqAux_chars sep s.length [] s chunk h c hc with h2 | h2
  · cases h2
  · exact h2

theorem jsTrim_chars (s : Str) : ∀ c ∈ jsTrim s, c ∈ s := by
  intro c hc
  rw [jsTrim] at hc
  rw [List.mem_reverse] at hc
  have h1 := List.dropWhile_sublist (l := (s.dropWhile Char.isWhitespace).reverse)
    (p := Char.isWhitespace)
  have h2 : c ∈ (s.dropWhile Char.isWhitespace).reverse := h1.subset hc
  rw [List.mem_reverse] at h2
  exact (List.dropWhile_sublist (l := s) (p := Char.isWhitespace)).subset h2

theorem twoPart_noUpper {sep nm p0 p1 : Str} (hnm : NoUpper nm)
    (h : (splitOnSeq sep nm).map jsTrim = [p0, p1]) : NoUpper p0 ∧ NoUpper p1 := by
  have h0 : p0 ∈ (splitOnSeq sep nm).map jsTrim := by rw [h]; simp
  have h1 : p1 ∈ (splitOnSeq sep nm).map jsTrim := by rw [h]; simp
  obtain ⟨c0, hc0, rfl⟩ := List.mem_map.mp h0
  obtain ⟨c1, hc1, rfl⟩ := List.mem_map.mp h1
  constructor
  · exact noUpper_of_subset
      (fun c hc => splitOnSeq_chars sep nm c0 hc0 c (jsTrim_chars c0 c hc)) hnm
  · exact noUpper_of_subset
      (fun c hc => splitOnSeq_chars sep nm c1 hc1 c (jsTrim_chars c1 c hc)) hnm

theorem combinationPermutations_noUpper (nm : Str) (hnm : NoUpper nm) :
    ∀ p ∈ generateCombinationPermutations nm, NoUpper p := by
  intro p hp
  rw [generateCombinationPermutations, mem_dedupFirst] at hp
  simp only [rawCombinationPermutations, List.mem_cons, List.mem_append] at hp
  rcases hp with rfl | hp | hp
  · exact hnm
  · split at hp
    · split at hp
      · next p0 p1 heq =>
        obtain ⟨h0, h1⟩ := twoPart_noUpper hnm heq
        fin_cases hp <;>
          first
            | exact h0
            | exact h1
            | exact noUpper_append (noUpper_append h0 (by decide)) h1
            | exact noUpper_append (noUpper_append h1 (by decide)) h0
      · cases hp
    · cases hp
  · split at hp
    · split at hp
      · next p0 p1 heq =>
        obtain ⟨h0, h1⟩ := twoPart_noUpper hnm heq
        fin_cases hp <;>
          first
            | exact h0
            | exact h1
            | exact noUpper_append (noUpper_append h0 (by decide)) h1
            | exact noUpper_append (noUpper_append h1 (by decide)) h0
      · cases hp
    · cases hp

theorem termsForVariant_noUpper (f : Formulation) (dv ctx dn : Str)
    (hdn : NoUpper dn) (hdv : NoUpper dv) :
    ∀ t ∈ termsForVariant f dv ctx dn,
      NoUpper t ∨ t = dn ++ (" MDI".toList) ∨ t = dn ++ (" DPI".toList) := by
  intro t ht
  simp only [termsForVariant] at ht
  rcases List.mem_append.mp ht with ht | ht
  · rcases List.mem_append.mp ht with ht | ht
    · rcases List.mem_append.mp ht with ht | ht
      · -- delivery-specific terms
        split at ht
        · rcases List.mem_append.mp ht with ht | ht
          · rcases List.mem_append.mp ht with ht | ht
            · rcases List.mem_append.mp ht with ht | ht
              · split at ht <;>
                  fin_cases ht <;>
                    exact Or.inl (noUpper_append (noUpper_append (noUpper_append hdn
                      (by decide)) hdv) (by decide))
              · fin_cases ht
                exact Or.inl (noUpper_append (noUpper_append hdn (by decide)) hdv)
            · split at ht
              · fin_cases ht <;>
                  first
                    | exact Or.inr (Or.inl rfl)
                    | exact Or.inl (noUpper_append hdn (by decide))
              · cases ht
          · split at ht
            · fin_cases ht <;>
                first
                  | exact Or.inr (Or.inr rfl)
                  | exact Or.inl (noUpper_append hdn (by decide))
            · cases ht
        · cases ht
      · -- formulation terms
        split at ht <;>
          fin_cases ht <;> exact Or.inl (noUpper_append hdn (by decide))
    · -- respimat terms
      split at ht
      · fin_cases ht
        exact Or.inl (noUpper_append hdn (by decide))
      · cases ht
  · -- bare name
    fin_cases ht
    exact Or.inl hdn

theorem generateSearchTerms_noUpper (m : MedicationMention) :
    ∀ t ∈ generateSearchTerms m,
      NoUpper t ∨
        ∃ dn ∈ generateCombinationPermutations (jsToLower m.name),
          t = dn ++ (" MDI".toList) ∨ t = dn ++ (" DPI".toList) := by
  intro t ht
  rw [generateSearchTerms, mem_dedupFirst] at ht
  simp only [rawSearchTerms, List.mem_flatMap] at ht
  obtain ⟨dn, hdnMem, htv⟩ := ht
  have hdnU : NoUpper dn :=
    combinationPermutations_noUpper (jsToLower m.name) (noUpper_jsToLower m.name) dn hdnMem
  have hdvU : NoUpper (jsToLower (m.deliveryMethod.getD [])) :=
    noUpper_jsToLower (m.deliveryMethod.getD [])
  rcases termsForVariant_noUpper m.formulation (jsToLower (m.deliveryMethod.getD []))
      (jsToLower m.fullContext) dn hdnU hdvU t htv with h | h | h
  · exact Or.inl h
  · exact Or.inr ⟨dn, hdnMem, Or.inl h⟩
  · exact Or.inr ⟨dn, hdnMem, Or.inr h⟩

/-- Claim-side reading of "whitespace-normalized": no leading or trailing
space and no two consecutive spaces. -/
def WhitespaceNormalized (t : Str) : Prop :=
  t.head? ≠ some ' ' ∧ t.getLast? ≠ some ' ' ∧ jsIncludes t ("  ".toList) = false

instance (t : Str) : Decidable (WhitespaceNormalized t) := by
  unfold WhitespaceNormalized
  infer_instance

def mentionAlbuterolInhaler : MedicationMention :=
  { name := "albuterol".toList, dosage := none, formulation := .IR,
    deliveryMethod := some ("inhaler".toList),
    fullContext := "Albuterol inhaler 2 puffs as needed".toList }

def mentionPaddedName : MedicationMention :=
  { name := " metformin".toList, dosage := none, formulation := .IR,
    deliveryMethod := none, fullContext := [] }

/-- C5 (counterexample): the inhaler alias term `"albuterol MDI"` is in
the generator's output and contains an upper-case character, so not every
output string is lower-cased; and for a mention whose name carries a
leading space, the output term `" metformin ir"` is not
whitespace-normalized (the generator applies no whitespace
normalization). -/
theorem c5_search_terms_counterexample :
    (("albuterol MDI".toList) ∈ generateSearchTerms mentionAlbuterolInhaler ∧
      ¬ NoUpper ("albuterol MDI".toList)) ∧
    ((" metformin ir".toList) ∈ generateSearchTerms mentionPaddedName ∧
      ¬ WhitespaceNormalized (" metformin ir".toList)) := by
  decide

/-- C5 (amended): the generator's output is de-duplicated keeping first
occurrences (no exact duplicates, a sublist of the raw push order, same
members, first-occurrence order); and every term is free of ASCII
uppercase except the literal inhaler-alias terms `dn ++ " MDI"` and
`dn ++ " DPI"`. No whitespace normalization is applied. -/
theorem c5_search_terms_amended :
    ∀ m : MedicationMention,
      (generateSearchTerms m).Nodup ∧
      (generateSearchTerms m).Sublist (rawSearchTerms m) ∧
      (∀ t, t ∈ generateSearchTerms m ↔ t ∈ rawSearchTerms m) ∧
      (generateSearchTerms m).Pairwise
        (fun x y => firstIdx x (rawSearchTerms m) < firstIdx y (rawSearchTerms m)) ∧
      (∀ t ∈ generateSearchTerms m,
        NoUpper t ∨
          ∃ dn ∈ generateCombinationPermutations (jsToLower m.name),
            t = dn ++ (" MDI".toList) ∨ t = dn ++ (" DPI".toList)) := by
  intro m
  refine ⟨nodup_dedupFirst _, sublist_dedupFirst _, ?_, pairwise_firstIdx_dedupFirst _,
    generateSearchTerms_noUpper m⟩
  intro t
  rw [generateSearchTerms, mem_dedupFirst]

/-- C5 witness: the amended theorem applied at the inhaler mention, for
the term `"albuterol MDI"`. -/
theorem c5_search_terms_amended_witness :
    NoUpper ("albuterol MDI".toList) ∨
      ∃ dn ∈ generateCombinationPermutations (jsToLower mentionAlbuterolInhaler.name),
        ("albuterol MDI".toList) = dn ++ (" MDI".toList) ∨
        ("albuterol MDI".toList) = dn ++ (" DPI".toList) :=
  (c5_search_terms_amended mentionAlbuterolInhaler).2.2.2.2 ("albuterol MDI".toList)
    (by decide)

/-- C1 witness: the amended theorem applied at a concrete ER-cue context. -/
theorem c1_formulation_classifier_amended_witness :
    isExplicitlyER ("Metformin XR 500mg".toList) = true :=
  (c1_formulation_classifier_amended ("Metformin XR 500mg".toList)).2
    ⟨"xr".toList, by simp [claimedERKeywords, strs],
     (wholeWordOccursB_iff ("xr".toList) (jsToLower ("Metformin XR 500mg".toList))).mp
       (by decide)⟩

/-- C4 witness: the amended theorem applied at the slash-combination
example of the claim. -/
theorem c4_combination_expander_amended_witness :
    ("hydrochlorothiazide/lisinopril".toList)
      ∈ generateCombinationPermutations ("lisinopril/hydrochlorothiazide".toList) :=
  (c4_combination_expander_amended ("lisinopril/hydrochlorothiazide".toList)).2.1
    ("lisinopril".toList) ("hydrochlorothiazide".toList) (by decide) (by decide)
    ("hydrochlorothiazide/lisinopril".toList) (by decide)
